import Mathlib

/-!
Verification of the schema-agnostic policy evaluation engine
(`backend/app/services/evaluator.py`, `backend/app/services/file_parser.py`,
`backend/app/api/routes.py`, `backend/app/core/config.py`).

JSON values are modelled by the inductive `JValue`; Python's `None` is
`JValue.null`.  Numbers (Python `int` and `float`) are modelled as rationals:
this is exact for every value the engine manipulates except binary-float
rounding, which no statement below depends on.  Python exceptions are modelled
by `PyExc` and fallible code returns `Except PyExc _`.  Exception message
strings follow CPython's wording approximately (quotes are omitted); no
statement depends on message contents, only on the exception class.

Modelled library subsets (each noted again at its definition):
`datetime.fromisoformat` is modelled on the `YYYY-MM-DD[T HH:MM[:SS]][+-HH:MM]`
subset, `float(str)` on finite decimal/scientific literals, and `re` on
literal patterns (metacharacters are modelled as failing to compile).
-/

inductive JValue where
  | null
  | bool (b : Bool)
  | num (q : ℚ)
  | str (s : String)
  | arr (xs : List JValue)
  | obj (kvs : List (String × JValue))

mutual

/-- Size of a JSON value (an executable model of `sizeOf`), used as the
recursion-depth bound of the fuel-based functions below: any chain of strict
subvalue descents from `v` is shorter than `jsize v`. -/
def jsize : JValue → ℕ
  | .null => 1
  | .bool _ => 1
  | .num _ => 1
  | .str _ => 1
  | .arr xs => jsizeList xs + 1
  | .obj kvs => jsizeFields kvs + 1

def jsizeList : List JValue → ℕ
  | [] => 0
  | x :: xs => jsize x + jsizeList xs + 1

def jsizeFields : List (String × JValue) → ℕ
  | [] => 0
  | kv :: rest => jsize kv.2 + jsizeFields rest + 1

end

/-- Python exception classes raised by the evaluator's code paths. -/
inductive PyExc where
  | typeError (msg : String)
  | valueError (msg : String)
  | attributeError (msg : String)
  | reError (msg : String)
  | recursionError (msg : String)
deriving DecidableEq, Repr

/-- `str(e)` on an exception: its message. -/
def pyExcStr : PyExc → String
  | .typeError m => m
  | .valueError m => m
  | .attributeError m => m
  | .reError m => m
  | .recursionError m => m

/-- The exception classes caught by `_evaluate_condition`'s
`except (TypeError, ValueError, AttributeError)` clause. -/
def catchable : PyExc → Bool
  | .typeError _ => true
  | .valueError _ => true
  | .attributeError _ => true
  | .reError _ => false
  | .recursionError _ => false

/-- `value is None`. -/
def JValue.isNull : JValue → Bool
  | .null => true
  | _ => false

/-- `isinstance(value, dict)`. -/
def JValue.isObj : JValue → Bool
  | .obj _ => true
  | _ => false

/-- Python truthiness (`bool(value)`). -/
def truthy : JValue → Bool
  | .null => false
  | .bool b => b
  | .num q => decide (q ≠ 0)
  | .str s => decide (s ≠ "")
  | .arr xs => !xs.isEmpty
  | .obj kvs => !kvs.isEmpty

/-- Dictionary key lookup (`key in d` / `d[key]` / `d.get(key)`), first match. -/
def jlookup (k : String) : List (String × JValue) → Option JValue
  | [] => none
  | (k2, v) :: rest => if k2 = k then some v else jlookup k rest

/-- Whitespace as stripped by Python `str.strip` (ASCII subset). -/
def isPyWS (c : Char) : Bool :=
  c = ' ' || c = '\t' || c = '\n' || c = '\r' || c.toNat = 11 || c.toNat = 12

/-- `str.strip()` on the character list. -/
def trimList (cs : List Char) : List Char :=
  ((cs.dropWhile isPyWS).reverse.dropWhile isPyWS).reverse

def pyTrim (s : String) : String := ⟨trimList s.data⟩

def isPrefixChars : List Char → List Char → Bool
  | [], _ => true
  | _ :: _, [] => false
  | n :: ns, h :: hs => n = h && isPrefixChars ns hs

/-- Substring occurrence test on character lists. -/
def containsSub : List Char → List Char → Bool
  | [], ns => ns.isEmpty
  | h :: hs, ns => isPrefixChars ns (h :: hs) || containsSub hs ns

/-- `str.split(c)` for a one-character separator. -/
def splitChar (c : Char) : List Char → List (List Char)
  | [] => [[]]
  | x :: rest =>
    let r := splitChar c rest
    if x = c then [] :: r
    else
      match r with
      | [] => [[x]]
      | g :: gs => (x :: g) :: gs

def lastIs (cs : List Char) (c : Char) : Bool :=
  match cs.getLast? with
  | some x => x = c
  | none => false

def strStarts (s pre : String) : Bool := isPrefixChars pre.data s.data

def strEnds (s suf : String) : Bool := isPrefixChars suf.data.reverse s.data.reverse

def lowerStr (s : String) : String := ⟨s.data.map Char.toLower⟩

def upperStr (s : String) : String := ⟨s.data.map Char.toUpper⟩

def replaceSpaceUnderscore (s : String) : String :=
  ⟨s.data.map (fun c => if c = ' ' then '_' else c)⟩

/-- Runtime type name of a value, as it appears in CPython error messages
(`int` stands for both numeric types, see the file header). -/
def pyTypeName : JValue → String
  | .null => "NoneType"
  | .bool _ => "bool"
  | .num _ => "int"
  | .str _ => "str"
  | .arr _ => "list"
  | .obj _ => "dict"

/-- Decimal rendering of a rational: exact for integers; non-integral values
render as `num/den` (an approximation of CPython float repr, never
load-bearing below). -/
def ratRepr (q : ℚ) : String :=
  if q.den = 1 then toString q.num else toString q.num ++ "/" ++ toString q.den

/-- Python `repr(value)`, structurally recursive on an explicit depth bound.
Every recursive call descends into a strict subvalue, so a bound of
`jsize` (as supplied by `pyRepr`) can never be exhausted; the `0` branch is
unreachable. -/
def pyReprF : ℕ → JValue → String
  | 0, _ => ""
  | fuel + 1, v =>
    match v with
    | .null => "None"
    | .bool b => if b then "True" else "False"
    | .num q => ratRepr q
    | .str s => "\x27" ++ s ++ "\x27"
    | .arr xs => "[" ++ ", ".intercalate (xs.map (pyReprF fuel)) ++ "]"
    | .obj kvs =>
      "\x7b" ++ ", ".intercalate (kvs.map
        (fun kv => "\x27" ++ kv.1 ++ "\x27: " ++ pyReprF fuel kv.2)) ++ "\x7d"

def pyRepr (v : JValue) : String := pyReprF (jsize v) v

/-- Python `str(value)`: identity on strings, `repr` recursively otherwise
(matches `str` on None/bools/ints and containers). -/
def pyStr : JValue → String
  | .str s => s
  | v => pyRepr v

/-- Numeric view used by Python `==`: bools are the integers 0 and 1. -/
def numVal : JValue → Option ℚ
  | .bool b => some (if b then 1 else 0)
  | .num q => some q
  | _ => none

/-- Python `==` on JSON values, structurally recursive on an explicit depth
bound: numeric tower (`True == 1`, `1 == 1.0`), deep structural equality on
strings and lists, order-insensitive equality on dictionaries.  Every
recursive call descends into a strict subvalue of the left operand, so the
`jsize` bound supplied by `pyEq` can never be exhausted. -/
def pyEqF : ℕ → JValue → JValue → Bool
  | 0, _, _ => false
  | fuel + 1, a, b =>
    match numVal a, numVal b with
    | some x, some y => x == y
    | _, _ =>
      match a, b with
      | .null, .null => true
      | .str s, .str t => s == t
      | .arr xs, .arr ys =>
        xs.length == ys.length && (xs.zip ys).all (fun p => pyEqF fuel p.1 p.2)
      | .obj xs, .obj ys =>
        xs.length == ys.length && xs.all (fun kv =>
          match jlookup kv.1 ys with
          | some w => pyEqF fuel kv.2 w
          | none => false)
      | _, _ => false

def pyEq (a b : JValue) : Bool := pyEqF (jsize a) a b

def digitsToNat (ds : List Char) : ℕ :=
  ds.foldl (fun acc c => acc * 10 + (c.toNat - 48)) 0

/-- Optional exponent part of a Python float literal (`e`/`E`, sign, digits). -/
def parseExp : List Char → Option (ℤ × List Char)
  | [] => some (0, [])
  | c :: rest =>
    if c = 'e' || c = 'E' then
      let (esign, r) : ℤ × List Char :=
        match rest with
        | '+' :: r2 => (1, r2)
        | '-' :: r2 => (-1, r2)
        | _ => (1, rest)
      let (ed, r2) := r.span (·.isDigit)
      if ed.isEmpty then none else some (esign * digitsToNat ed, r2)
    else some (0, c :: rest)

/-- `float(s)` for strings: modelled on finite decimal and scientific
literals (whitespace stripped, optional sign, digits with optional point and
exponent); `inf`, `nan` and digit-group underscores are outside the modelled
subset. -/
def parseFloatStr (s : String) : Option ℚ :=
  let cs0 := trimList s.data
  let (sign, cs1) : ℤ × List Char :=
    match cs0 with
    | '+' :: rest => (1, rest)
    | '-' :: rest => (-1, rest)
    | _ => (1, cs0)
  let (ip, cs2) := cs1.span (·.isDigit)
  let (fp, cs3) : List Char × List Char :=
    match cs2 with
    | '.' :: rest => rest.span (·.isDigit)
    | _ => ([], cs2)
  if ip.isEmpty && fp.isEmpty then none
  else
    match parseExp cs3 with
    | none => none
    | some (ex, rest) =>
      if !rest.isEmpty then none
      else
        let m : ℤ := sign * digitsToNat (ip ++ fp)
        let e10 : ℤ := ex - fp.length
        some (if e10 ≥ 0 then (m : ℚ) * 10 ^ e10.toNat else (m : ℚ) / 10 ^ (-e10).toNat)

/-- Python `float(value)` as used by `_compare_datetime_or_number`. -/
def pyFloat : JValue → Except PyExc ℚ
  | .num q => .ok q
  | .bool b => .ok (if b then 1 else 0)
  | .str s =>
    match parseFloatStr s with
    | some q => .ok q
    | none => .error (.valueError ("could not convert string to float: " ++ s))
  | v => .error (.typeError ("float() argument must be a string or a real number, not " ++ pyTypeName v))

/-- A parsed `datetime`: seconds of the naive civil reading, plus the UTC
offset in seconds when the value is timezone-aware. -/
structure PyDateTime where
  naiveSec : ℤ
  offSec : Option ℤ
deriving DecidableEq, Repr

def isLeap (y : ℕ) : Bool :=
  y % 4 == 0 && (y % 100 != 0 || y % 400 == 0)

def daysInMonth (y m : ℕ) : ℕ :=
  if m = 2 then (if isLeap y then 29 else 28)
  else if m = 4 ∨ m = 6 ∨ m = 9 ∨ m = 11 then 30 else 31

/-- Days since 1970-01-01 of a civil date (standard civil-from-days inverse;
exact for the positive years a 4-digit ISO date can carry). -/
def daysFromCivil (y m d : ℤ) : ℤ :=
  let y2 := if m ≤ 2 then y - 1 else y
  let era := y2 / 400
  let yoe := y2 - era * 400
  let mp := (m + 9) % 12
  let doy := (153 * mp + 2) / 5 + d - 1
  let doe := yoe * 365 + yoe / 4 - yoe / 100 + doy
  era * 146097 + doe - 719468

def parse2Digits : List Char → Option (ℕ × List Char)
  | c1 :: c2 :: rest =>
    if c1.isDigit && c2.isDigit then
      some ((c1.toNat - 48) * 10 + (c2.toNat - 48), rest)
    else none
  | _ => none

def parse4Digits : List Char → Option (ℕ × List Char)
  | c1 :: c2 :: c3 :: c4 :: rest =>
    if c1.isDigit && c2.isDigit && c3.isDigit && c4.isDigit then
      some (((c1.toNat - 48) * 10 + (c2.toNat - 48)) * 100 +
        (c3.toNat - 48) * 10 + (c4.toNat - 48), rest)
    else none
  | _ => none

def parseChar (c : Char) : List Char → Option (List Char)
  | c2 :: rest => if c2 = c then some rest else none
  | _ => none

/-- `HH:MM[:SS]` with field validation; yields seconds within the day. -/
def parseTimePart (cs : List Char) : Option (ℕ × List Char) := do
  let (h, cs1) ← parse2Digits cs
  let cs2 ← parseChar ':' cs1
  let (mi, cs3) ← parse2Digits cs2
  if h ≥ 24 ∨ mi ≥ 60 then none
  else
    match parseChar ':' cs3 with
    | some cs4 => do
      let (ss, cs5) ← parse2Digits cs4
      if ss ≥ 60 then none else some (h * 3600 + mi * 60 + ss, cs5)
    | none => some (h * 3600 + mi * 60, cs3)

/-- Optional `+HH:MM` / `-HH:MM` UTC offset, in seconds. -/
def parseOffset : List Char → Option (Option ℤ × List Char)
  | [] => some (none, [])
  | c :: rest =>
    if c = '+' ∨ c = '-' then do
      let (oh, cs1) ← parse2Digits rest
      let cs2 ← parseChar ':' cs1
      let (om, cs3) ← parse2Digits cs2
      if oh ≥ 24 ∨ om ≥ 60 then none
      else some (some ((if c = '-' then -1 else 1) * ((oh : ℤ) * 3600 + om * 60)), cs3)
    else none

/-- `datetime.fromisoformat`, modelled on the
`YYYY-MM-DD[T HH:MM[:SS]][+-HH:MM]` subset (`T` or space separator;
fractional seconds outside the modelled subset). -/
def fromIso (cs : List Char) : Option PyDateTime := do
  let (y, cs1) ← parse4Digits cs
  let cs2 ← parseChar '-' cs1
  let (mo, cs3) ← parse2Digits cs2
  let cs4 ← parseChar '-' cs3
  let (d, cs5) ← parse2Digits cs4
  if mo < 1 ∨ mo > 12 ∨ d < 1 ∨ d > daysInMonth y mo then none
  else
    match cs5 with
    | [] => some ⟨daysFromCivil y mo d * 86400, none⟩
    | sep :: rest =>
      if sep = 'T' ∨ sep = ' ' then do
        let (t, cs6) ← parseTimePart rest
        let (off, cs7) ← parseOffset cs6
        if cs7.isEmpty then some ⟨daysFromCivil y mo d * 86400 + t, off⟩ else none
      else none

/-- `_try_parse_datetime`: strings only; strip, rewrite a trailing `Z` to
`+00:00`, then attempt ISO-8601 parsing. -/
def tryParseDatetime : JValue → Option PyDateTime
  | .str s0 =>
    let cs := trimList s0.data
    let cs2 := if lastIs cs 'Z' then cs.dropLast ++ "+00:00".data else cs
    fromIso cs2
  | _ => none

def icmp (a b : ℤ) : Ordering :=
  if a < b then .lt else if b < a then .gt else .eq

def qcmp (a b : ℚ) : Ordering :=
  if a < b then .lt else if b < a then .gt else .eq

/-- Python comparison of two `datetime` values: naive pairs compare by civil
reading, aware pairs by UTC instant, and a mixed pair raises `TypeError`. -/
def dtCompare (a b : PyDateTime) : Except PyExc Ordering :=
  match a.offSec, b.offSec with
  | none, none => .ok (icmp a.naiveSec b.naiveSec)
  | some x, some y => .ok (icmp (a.naiveSec - x) (b.naiveSec - y))
  | _, _ => .error (.typeError "cannot compare offset-naive and offset-aware datetimes")

/-- `_compare_datetime_or_number` followed by the ordering comparison done in
`_gt`/`_lt`/`_ge`/`_le`: datetime mode when both operands parse as
timestamps, else float coercion of both. -/
def pyCompare (a b : JValue) : Except PyExc Ordering :=
  match tryParseDatetime a, tryParseDatetime b with
  | some da, some db => dtCompare da db
  | _, _ => do
    let fa ← pyFloat a
    let fb ← pyFloat b
    .ok (qcmp fa fb)

def gtOp (a b : JValue) : Except PyExc Bool :=
  if a.isNull || b.isNull then .ok false
  else (pyCompare a b).map (· == Ordering.gt)

def ltOp (a b : JValue) : Except PyExc Bool :=
  if a.isNull || b.isNull then .ok false
  else (pyCompare a b).map (· == Ordering.lt)

def geOp (a b : JValue) : Except PyExc Bool :=
  if a.isNull || b.isNull then .ok false
  else (pyCompare a b).map (· != Ordering.lt)

def leOp (a b : JValue) : Except PyExc Bool :=
  if a.isNull || b.isNull then .ok false
  else (pyCompare a b).map (· != Ordering.gt)

/-- Python substring test `needle in hay` on strings. -/
def strContains (hay needle : String) : Bool :=
  containsSub hay.data needle.data

/-- `_coerce_to_list`: `None` to `[]`, lists pass through, strings split on
`|` (preferred) or `,` with blank parts dropped, anything else wrapped. -/
def coerceToList : JValue → List JValue
  | .null => []
  | .arr xs => xs
  | .str s =>
    let text := trimList s.data
    let sep : Option Char :=
      if text.any (· = '|') then some '|'
      else if text.any (· = ',') then some ','
      else none
    match sep with
    | some c =>
      (((splitChar c text).map trimList).filter (· ≠ [])).map
        (fun cs => JValue.str ⟨cs⟩)
    | none => [.str ⟨text⟩]
  | v => [v]

/-- Unhashable Python values (lists and dicts) as tested by `set()` building
and set membership. -/
def unhashable : JValue → Bool
  | .arr _ => true
  | .obj _ => true
  | _ => false

/-- `re.compile`, modelled on literal patterns: a pattern of plain characters
compiles (and then `re.search` is substring search); patterns holding regex
metacharacters are modelled as failing to compile with `re.error`.  The
pattern `[` fails to compile both here and in CPython
(unterminated character set). -/
def regexCompile (p : String) : Option String :=
  if p.data.all (fun c =>
      c.isAlphanum || c = ' ' || c = '_' || c = '-' || c = ':' || c = '/' ||
      c = ',' || c = ';' || c = '=' || c = '@' || c = '#' || c = '~') then
    some p
  else none

/-- Python membership `a in b` for the container kinds a JSON value can be. -/
def pyIn (a b : JValue) : Except PyExc Bool :=
  match b with
  | .str t =>
    match a with
    | .str s => .ok (strContains t s)
    | _ => .error (.typeError ("in <string> requires string as left operand, not " ++ pyTypeName a))
  | .arr xs => .ok (xs.any (pyEq a))
  | .obj kvs =>
    if unhashable a then .error (.typeError ("unhashable type: " ++ pyTypeName a))
    else
      .ok (match a with
        | .str s => (jlookup s kvs).isSome
        | _ => false)
  | v => .error (.typeError ("argument of type " ++ pyTypeName v ++ " is not iterable"))

def eqOp (a b : JValue) : Except PyExc Bool := .ok (pyEq a b)

def neOp (a b : JValue) : Except PyExc Bool := .ok (!pyEq a b)

def inOp (a b : JValue) : Except PyExc Bool :=
  if b.isNull then .ok false else pyIn a b

def notInOp (a b : JValue) : Except PyExc Bool :=
  if b.isNull then .ok true else (pyIn a b).map (!·)

def containsOp (a b : JValue) : Except PyExc Bool :=
  if a.isNull then .ok false
  else
    match b with
    | .str bn => .ok (strContains (pyStr a) bn)
    | _ => .error (.typeError ("in <string> requires string as left operand, not " ++ pyTypeName b))

def notContainsOp (a b : JValue) : Except PyExc Bool :=
  if a.isNull then .ok true
  else
    match b with
    | .str bn => .ok (!strContains (pyStr a) bn)
    | _ => .error (.typeError ("in <string> requires string as left operand, not " ++ pyTypeName b))

def regexOp (a b : JValue) : Except PyExc Bool :=
  if a.isNull then .ok false
  else
    match regexCompile (pyStr b) with
    | some pat => .ok (strContains (pyStr a) pat)
    | none => .error (.reError "bad regular expression pattern")

def existsOp (a _b : JValue) : Except PyExc Bool := .ok (!a.isNull)

def notExistsOp (a _b : JValue) : Except PyExc Bool := .ok a.isNull

def startsWithOp (a b : JValue) : Except PyExc Bool :=
  if a.isNull then .ok false else .ok (strStarts (pyStr a) (pyStr b))

def endsWithOp (a b : JValue) : Except PyExc Bool :=
  if a.isNull then .ok false else .ok (strEnds (pyStr a) (pyStr b))

def isEmptyOp (a _b : JValue) : Except PyExc Bool :=
  if a.isNull then .ok true else .ok (!truthy a)

def isNotEmptyOp (a _b : JValue) : Except PyExc Bool :=
  if a.isNull then .ok false else .ok (truthy a)

/-- One step of `contains_any`'s generator: per element of the actual list,
`set(expected_list)` is built (raising on an unhashable member) and then
membership is tested (raising on an unhashable probe), short-circuiting on
the first hit — so an empty actual list never touches the expected list. -/
def containsAnyGo (bl : List JValue) : List JValue → Except PyExc Bool
  | [] => .ok false
  | x :: xs =>
    if bl.any unhashable then .error (.typeError "unhashable type: list")
    else if unhashable x then .error (.typeError "unhashable type: list")
    else if bl.any (pyEq x) then .ok true
    else containsAnyGo bl xs

def containsAnyOp (a b : JValue) : Except PyExc Bool :=
  if b.isNull then .ok false
  else containsAnyGo (coerceToList b) (coerceToList a)

/-- The `OPS` registry as an association table, in source order. -/
def OPS_TABLE : List (String × (JValue → JValue → Except PyExc Bool)) :=
  [("==", eqOp), ("!=", neOp), (">", gtOp), ("<", ltOp), (">=", geOp),
   ("<=", leOp), ("in", inOp), ("not_in", notInOp), ("contains", containsOp),
   ("not_contains", notContainsOp), ("regex", regexOp), ("exists", existsOp),
   ("not_exists", notExistsOp), ("starts_with", startsWithOp),
   ("ends_with", endsWithOp), ("is_empty", isEmptyOp),
   ("is_not_empty", isNotEmptyOp), ("contains_any", containsAnyOp)]

def opsAssoc (k : String) :
    List (String × (JValue → JValue → Except PyExc Bool)) →
      Option (JValue → JValue → Except PyExc Bool)
  | [] => none
  | (k2, v) :: rest => if k2 = k then some v else opsAssoc k rest

/-- `OPS.get(name)`: canonical operator name to handler, `none` for an
unregistered name. -/
def OPS (name : String) : Option (JValue → JValue → Except PyExc Bool) :=
  opsAssoc name OPS_TABLE

def FIELD_KEYS : List String :=
  ["field", "attribute", "key", "name", "property", "condition", "metric", "factor", "dimension"]

def OP_KEYS : List String :=
  ["op", "operator", "operation", "equals", "is", "comparison", "must_be", "check"]

def VALUE_KEYS : List String :=
  ["value", "expected", "target", "compare_to", "threshold", "limit", "minimum", "maximum"]

def metadataKeys : List String :=
  ["description", "name", "title", "id", "policy_id", "rule_id", "validation_name"]

/-- `_find_key_value`: first listed key present in the rule wins, its raw
value returned; a missing key and a key holding `None` are indistinguishable
(Python returns `None` for both). -/
def findKeyValue (kvs : List (String × JValue)) : List String → JValue
  | [] => .null
  | k :: rest =>
    match jlookup k kvs with
    | some v => v
    | none => findKeyValue kvs rest

/-- Descent loop of `_get_nested_value`: walk the dot-split path through
nested mappings, `None` as soon as a step is missing or non-mapping. -/
def descend : JValue → List String → JValue
  | v, [] => v
  | .obj kvs, k :: rest =>
    (match jlookup k kvs with
     | some v => descend v rest
     | none => .null)
  | _, _ :: _ => .null

/-- `_get_nested_value` for a string key: empty key gives `None`; a literal
top-level hit wins; otherwise split on `.` and descend. -/
def getNestedStr (data : JValue) (key : String) : JValue :=
  if key = "" then .null
  else
    match data with
    | .obj kvs =>
      (match jlookup key kvs with
       | some v => v
       | none => descend (.obj kvs) ((splitChar '.' key.data).map (fun cs => (⟨cs⟩ : String))))
    | _ => descend data ((splitChar '.' key.data).map (fun cs => (⟨cs⟩ : String)))

/-- `_get_nested_value` on an arbitrary key value: string keys resolve;
a truthy non-string key raises — `key in data` on a dict raises `TypeError`
for unhashable keys, and otherwise `key.split(".")` raises
`AttributeError` — exactly as the Python does before its `try` block. -/
def getNestedValue (data key : JValue) : Except PyExc JValue :=
  if !truthy key then .ok .null
  else
    match key with
    | .str s => .ok (getNestedStr data s)
    | .arr _ =>
      if data.isObj then .error (.typeError "unhashable type: list")
      else .error (.attributeError "list object has no attribute split")
    | .obj _ =>
      if data.isObj then .error (.typeError "unhashable type: dict")
      else .error (.attributeError "dict object has no attribute split")
    | v => .error (.attributeError (pyTypeName v ++ " object has no attribute split"))

/-- The `OPERATOR_ALIASES` table, in source order. -/
def OPERATOR_ALIASES : List (String × String) :=
  [("equals", "=="), ("equal", "=="), ("is", "=="), ("is_equal_to", "=="),
   ("equal_to", "=="), ("eq", "=="),
   ("not_equal", "!="), ("not_equals", "!="), ("is_not", "!="),
   ("not_equal_to", "!="), ("ne", "!="), ("neq", "!="),
   ("greater_than", ">"), ("greater", ">"), ("gt", ">"), ("more_than", ">"),
   ("above", ">"),
   ("less_than", "<"), ("less", "<"), ("lt", "<"), ("below", "<"), ("under", "<"),
   ("greater_than_or_equal", ">="), ("greater_than_or_equal_to", ">="),
   ("gte", ">="), ("ge", ">="), ("at_least", ">="), ("minimum", ">="),
   ("less_than_or_equal", "<="), ("less_than_or_equal_to", "<="),
   ("lte", "<="), ("le", "<="), ("at_most", "<="), ("maximum", "<="),
   ("in", "in"), ("within", "in"), ("one_of", "in"), ("any_of", "in"),
   ("not_in", "not_in"), ("not_within", "not_in"), ("none_of", "not_in"),
   ("contains", "contains"), ("includes", "contains"), ("has", "contains"),
   ("not_contains", "not_contains"), ("does_not_contain", "not_contains"),
   ("excludes", "not_contains"),
   ("contains_any", "contains_any"),
   ("starts_with", "starts_with"), ("begins_with", "starts_with"),
   ("startswith", "starts_with"),
   ("ends_with", "ends_with"), ("endswith", "ends_with"),
   ("matches", "regex"), ("regex", "regex"), ("pattern", "regex"),
   ("exists", "exists"), ("is_present", "exists"), ("has_value", "exists"),
   ("not_exists", "not_exists"), ("is_absent", "not_exists"),
   ("no_value", "not_exists"),
   ("is_empty", "is_empty"), ("empty", "is_empty"),
   ("is_not_empty", "is_not_empty"), ("not_empty", "is_not_empty"),
   ("has_content", "is_not_empty")]

def strAssoc (k : String) : List (String × String) → Option String
  | [] => none
  | (k2, v) :: rest => if k2 = k then some v else strAssoc k rest

/-- `_normalize_operator`: stringify, lower-case, strip, spaces to
underscores, then the alias table; unrecognized names pass through. -/
def normalizeOperator (op : JValue) : String :=
  if !truthy op then "=="
  else
    let normalized := replaceSpaceUnderscore (pyTrim (lowerStr (pyStr op)))
    match strAssoc normalized OPERATOR_ALIASES with
    | some c => c
    | none => normalized

/-- Condition entries of `_evaluate_implicit_conditions`: one equality check
per non-metadata key, paired with its trace dictionary (which carries no
`type` tag). -/
def implicitConds (user : JValue) : List (String × JValue) → List (Bool × JValue)
  | [] => []
  | (k, v) :: rest =>
    if metadataKeys.contains k then implicitConds user rest
    else
      let actual := getNestedStr user k
      let p := pyEq actual v
      (p, .obj [("field", .str k), ("operator", .str "=="), ("expected", v),
        ("actual", actual), ("passed", .bool p)]) :: implicitConds user rest

/-- `_evaluate_implicit_conditions`: implicit AND over the key-value pairs;
vacuously true with a `no_implicit_conditions` trace when nothing remains
after dropping metadata keys. -/
def evaluateImplicit (user : JValue) (rule : List (String × JValue)) :
    Except PyExc (Bool × JValue) :=
  let cs := implicitConds user rule
  if cs.isEmpty then .ok (true, .obj [("result", .str "no_implicit_conditions")])
  else
    .ok (cs.all (·.1), .obj [("type", .str "implicit_conditions"),
      ("passed", .bool (cs.all (·.1))), ("conditions", .arr (cs.map (·.2)))])

def optStrVal : Option String → JValue
  | some s => .str s
  | none => .null

/-- The `operator` local of `_evaluate_condition` after the default-operator
step: the discovered operator value, or `"=="` when a truthy field and a
non-`None` expected value were found with no operator. -/
def ruleOperator (rule : List (String × JValue)) : JValue :=
  if truthy (findKeyValue rule FIELD_KEYS) &&
      !(findKeyValue rule VALUE_KEYS).isNull &&
      (findKeyValue rule OP_KEYS).isNull then .str "=="
  else findKeyValue rule OP_KEYS

/-- The `operator_normalized` local: alias normalization of a truthy
operator, `None` otherwise. -/
def ruleNormalizedOperator (rule : List (String × JValue)) : Option String :=
  if truthy (ruleOperator rule) then some (normalizeOperator (ruleOperator rule))
  else none

/-- The `op_func` local: `OPS.get(operator_normalized) if operator_normalized
else None` (an empty normalized name is falsy). -/
def ruleOpFn (rule : List (String × JValue)) :
    Option (JValue → JValue → Except PyExc Bool) :=
  match ruleNormalizedOperator rule with
  | some s => if s = "" then none else OPS s
  | none => none

/-- The trace of the unknown-operator fail-safe branch. -/
def unknownOpTrace (fieldv op1 : JValue) (opn : Option String)
    (expected actual : JValue) : JValue :=
  .obj [("type", .str "condition"), ("field", fieldv), ("operator", op1),
    ("operator_normalized", optStrVal opn), ("expected", expected),
    ("actual", actual), ("passed", .bool false),
    ("error", .str "unknown_operator")]

/-- The `try: passed = op_func(actual, expected) except (TypeError,
ValueError, AttributeError)` block of `_evaluate_condition`, together with
the success and captured-error traces. -/
def applyOpTrace (f : JValue → JValue → Except PyExc Bool) (fieldv : JValue)
    (opn : Option String) (expected actual : JValue) :
    Except PyExc (Bool × JValue) :=
  match f actual expected with
  | .ok passed =>
    .ok (passed, .obj [("type", .str "condition"), ("field", fieldv),
      ("operator", optStrVal opn), ("expected", expected),
      ("actual", actual), ("passed", .bool passed)])
  | .error e =>
    if catchable e then
      .ok (false, .obj [("type", .str "condition"), ("field", fieldv),
        ("operator", optStrVal opn), ("expected", expected),
        ("actual", actual), ("passed", .bool false),
        ("error", .str (pyExcStr e))])
    else .error e

/-- `_evaluate_condition`: discover field/operator/value, fall back to the
implicit form or the default `==` operator, resolve the actual value (which
can raise, outside the `try`), and dispatch; `TypeError`/`ValueError`/
`AttributeError` from the operator are captured in the trace. -/
def evaluateCondition (user : JValue) (rule : List (String × JValue)) :
    Except PyExc (Bool × JValue) :=
  if (findKeyValue rule FIELD_KEYS).isNull &&
      (findKeyValue rule OP_KEYS).isNull &&
      (findKeyValue rule VALUE_KEYS).isNull then
    evaluateImplicit user rule
  else
    match (if truthy (findKeyValue rule FIELD_KEYS) then
        getNestedValue user (findKeyValue rule FIELD_KEYS)
      else .ok .null) with
    | .error e => .error e
    | .ok actual =>
      match ruleOpFn rule with
      | none =>
        .ok (false, unknownOpTrace (findKeyValue rule FIELD_KEYS)
          (ruleOperator rule) (ruleNormalizedOperator rule)
          (findKeyValue rule VALUE_KEYS) actual)
      | some f =>
        applyOpTrace f (findKeyValue rule FIELD_KEYS)
          (ruleNormalizedOperator rule) (findKeyValue rule VALUE_KEYS) actual

/-- `str(node.get("matchType", node.get("match_type", default))).upper()`. -/
def matchTypeStr (kvs : List (String × JValue)) (dflt : String) : String :=
  upperStr (pyStr ((jlookup "matchType" kvs).getD
    ((jlookup "match_type" kvs).getD (.str dflt))))

def nonDictTrace (v : JValue) : JValue :=
  .obj [("result", .str "non_dict_node"), ("value", v)]

/-- Combination step of `_evaluate_all_of`: `all(results)` plus the
`allOf` trace holding every child trace in order. -/
def combineAll (rs : List (Bool × JValue)) : Bool × JValue :=
  (rs.all (·.1), .obj [("type", .str "allOf"), ("passed", .bool (rs.all (·.1))),
    ("conditions", .arr (rs.map (·.2)))])

/-- Combination step of `_evaluate_any_of`: `any(results)` plus the
`anyOf` trace holding every child trace in order. -/
def combineAny (rs : List (Bool × JValue)) : Bool × JValue :=
  (rs.any (·.1), .obj [("type", .str "anyOf"), ("passed", .bool (rs.any (·.1))),
    ("conditions", .arr (rs.map (·.2)))])

/-- Iterating a Python string yields its characters; each, being a non-dict
node, evaluates vacuously true with a `non_dict_node` trace. -/
def strChildren (s : String) : List (Bool × JValue) :=
  s.toList.map (fun c => (true, nonDictTrace (.str ⟨[c]⟩)))

/-- Iterating a Python dict yields its keys (strings), each evaluating
vacuously true as a non-dict node. -/
def objChildren (kvs : List (String × JValue)) : List (Bool × JValue) :=
  kvs.map (fun p => (true, nonDictTrace (.str p.1)))

/-- The `for condition in conditions` loop shared by the combinators:
left-to-right evaluation of all children with the given child evaluator, no
short-circuit on a failed child; an uncaught exception aborts the loop. -/
def evalListWith (f : JValue → Except PyExc (Bool × JValue)) :
    List JValue → Except PyExc (List (Bool × JValue))
  | [] => .ok []
  | x :: xs =>
    match f x with
    | .error e => .error e
    | .ok r =>
      match evalListWith f xs with
      | .error e => .error e
      | .ok rs => .ok (r :: rs)

/-- `_evaluate_all_of` / `_evaluate_any_of` on the raw child value: a list is
evaluated child by child; a string or dict is iterated Python-style
(characters / keys, each a vacuously-true non-dict node); other values raise
`TypeError` (`for` over a non-iterable). -/
def evalCombWith (f : JValue → Except PyExc (Bool × JValue))
    (comb : List (Bool × JValue) → Bool × JValue) (conditions : JValue) :
    Except PyExc (Bool × JValue) :=
  match conditions with
  | .arr xs => (evalListWith f xs).map comb
  | .str s => .ok (comb (strChildren s))
  | .obj kvs => .ok (comb (objChildren kvs))
  | v => .error (.typeError (pyTypeName v ++ " object is not iterable"))

/-- `_evaluate_not`: negate the child verdict, wrap its trace. -/
def evalNotWith (f : JValue → Except PyExc (Bool × JValue)) (condition : JValue) :
    Except PyExc (Bool × JValue) :=
  match f condition with
  | .error e => .error e
  | .ok (p, d) =>
    .ok (!p, .obj [("type", .str "not"), ("passed", .bool (!p)), ("condition", d)])

/-- `"rules" in node and isinstance(node["rules"], list)`: the combined
present-and-a-list test of the wrapper branches. -/
def asArr : Option JValue → Option (List JValue)
  | some (.arr xs) => some xs
  | _ => none

/-- `DynamicRuleEvaluator.evaluate`: the logical-tree dispatcher, in the
source's order — `None`, non-dict, `rules` wrapper, `conditions` wrapper,
`condition` indirection, `allOf`, `anyOf`, `not`, `and`, `or`, leaf.
Structurally recursive on an explicit depth bound: every recursive call
descends into a strict subvalue of `node`, so the `jsize` bound supplied by
`evaluate` can never be exhausted (`evaluateF_fuel` below); the `0` branch is
unreachable. -/
def evaluateF : ℕ → JValue → JValue → Except PyExc (Bool × JValue)
  | 0, _, _ => .error (.recursionError "maximum recursion depth exceeded")
  | fuel + 1, user, node =>
    match node with
    | .null => .ok (true, .obj [("result", .str "empty_node")])
    | .obj kvs =>
      (match asArr (jlookup "rules" kvs) with
       | some xs =>
         if matchTypeStr kvs "ALL" == "ANY" then
           evalCombWith (evaluateF fuel user) combineAny (.arr xs)
         else evalCombWith (evaluateF fuel user) combineAll (.arr xs)
       | none =>
         match asArr (jlookup "conditions" kvs) with
         | some xs =>
           if matchTypeStr kvs "AND" == "ANY" || matchTypeStr kvs "AND" == "OR" then
             evalCombWith (evaluateF fuel user) combineAny (.arr xs)
           else evalCombWith (evaluateF fuel user) combineAll (.arr xs)
         | none =>
           match jlookup "condition" kvs with
           | some v => evaluateF fuel user v
           | none =>
             match jlookup "allOf" kvs with
             | some v => evalCombWith (evaluateF fuel user) combineAll v
             | none =>
               match jlookup "anyOf" kvs with
               | some v => evalCombWith (evaluateF fuel user) combineAny v
               | none =>
                 match jlookup "not" kvs with
                 | some v => evalNotWith (evaluateF fuel user) v
                 | none =>
                   match jlookup "and" kvs with
                   | some v => evalCombWith (evaluateF fuel user) combineAll v
                   | none =>
                     match jlookup "or" kvs with
                     | some v => evalCombWith (evaluateF fuel user) combineAny v
                     | none => evaluateCondition user kvs)
    | v => .ok (true, nonDictTrace v)

/-- `DynamicRuleEvaluator.evaluate` with its always-sufficient depth bound. -/
def evaluate (user node : JValue) : Except PyExc (Bool × JValue) :=
  evaluateF (jsize node) user node

/-- `_evaluate_all_of` as called on a policy sub-node. -/
def evalAllOf (user conditions : JValue) : Except PyExc (Bool × JValue) :=
  evalCombWith (evaluate user) combineAll conditions

/-- `_evaluate_any_of` as called on a policy sub-node. -/
def evalAnyOf (user conditions : JValue) : Except PyExc (Bool × JValue) :=
  evalCombWith (evaluate user) combineAny conditions

/-- `_evaluate_not` as called on a policy sub-node. -/
def evalNot (user condition : JValue) : Except PyExc (Bool × JValue) :=
  evalNotWith (evaluate user) condition

/-- `_evaluate_all_of` / `_evaluate_any_of` restricted to list children, the
`for` loop over `conditions`. -/
def evalList (user : JValue) (xs : List JValue) :
    Except PyExc (List (Bool × JValue)) :=
  evalListWith (evaluate user) xs

/-- `_collect_failed_conditions`: walk the trace, emit one failure entry per
leaf trace of type `condition` whose `passed` is falsy, recursing through
`conditions` and `condition` sub-traces.  Fuel-based like `evaluateF`; the
`0` branch is unreachable from `collectFailedConditions`. -/
def collectF : ℕ → JValue → List JValue
  | 0, _ => []
  | fuel + 1, details =>
    match details with
    | .obj kvs =>
      (match jlookup "type" kvs with
       | some (.str "condition") =>
         if !truthy ((jlookup "passed" kvs).getD (.bool false)) then
           [.obj [("field", (jlookup "field" kvs).getD .null),
             ("operator", (jlookup "operator" kvs).getD .null),
             ("expected", (jlookup "expected" kvs).getD .null),
             ("actual", (jlookup "actual" kvs).getD .null),
             ("error", (jlookup "error" kvs).getD .null)]]
         else []
       | _ =>
         (match jlookup "conditions" kvs with
          | some v => collectF fuel v
          | none => []) ++
         (match jlookup "condition" kvs with
          | some v => collectF fuel v
          | none => []))
    | .arr xs => xs.flatMap (collectF fuel)
    | _ => []

def collectFailedConditions (details : JValue) : List JValue :=
  collectF (jsize details) details

/-- `evaluate_user_against_policy`: evaluate the pair, then attach the
flattened failures — collected only when the pair failed, `[]` otherwise. -/
def evaluateUserAgainstPolicy (userData policy : JValue) : Except PyExc JValue :=
  match evaluate userData policy with
  | .error e => .error e
  | .ok (passed, details) =>
    let failed : JValue :=
      if passed then .arr [] else .arr (collectFailedConditions details)
    .ok (.obj [("user_data", userData), ("policy", policy),
      ("passed", .bool passed), ("details", details),
      ("failed_conditions", failed)])

/-- `result["user_context"]` attachment condition: a truthy (non-`None`,
non-empty) context list whose length exceeds the index. -/
def ctxCond (oc : Option (List JValue)) (i : ℕ) : Bool :=
  match oc with
  | some l => !l.isEmpty && decide (i < l.length)
  | none => false

/-- Appends the per-pair bookkeeping of `evaluate_users_against_policies`:
indices always, contexts only under `ctxCond` (short lists simply omit the
key). -/
def attachPairMeta (r : JValue) (ui pi2 : ℕ)
    (ucs pcs : Option (List JValue)) : JValue :=
  match r with
  | .obj kvs =>
    .obj (kvs ++ [("user_index", .num ui), ("policy_index", .num pi2)] ++
      (if ctxCond ucs ui then [("user_context", (ucs.getD []).getD ui .null)] else []) ++
      (if ctxCond pcs pi2 then [("policy_context", (pcs.getD []).getD pi2 .null)] else []))
  | v => v

/-- Inner loop over policies for one user. -/
def goPolicies (u : JValue) (ui : ℕ) (ucs pcs : Option (List JValue)) :
    List JValue → ℕ → Except PyExc (List JValue)
  | [], _ => .ok []
  | p :: ps, pi2 =>
    match evaluateUserAgainstPolicy u p with
    | .error e => .error e
    | .ok r =>
      match goPolicies u ui ucs pcs ps (pi2 + 1) with
      | .error e => .error e
      | .ok rest => .ok (attachPairMeta r ui pi2 ucs pcs :: rest)

/-- Outer loop over users. -/
def goUsers (policies : List JValue) (ucs pcs : Option (List JValue)) :
    List JValue → ℕ → Except PyExc (List JValue)
  | [], _ => .ok []
  | u :: us, ui =>
    match goPolicies u ui ucs pcs policies 0 with
    | .error e => .error e
    | .ok row =>
      match goUsers policies ucs pcs us (ui + 1) with
      | .error e => .error e
      | .ok rest => .ok (row ++ rest)

/-- `evaluate_users_against_policies`: the record-major cross product with
optional context attachment by index. -/
def evaluateUsersAgainstPolicies (users policies : List JValue)
    (ucs pcs : Option (List JValue)) : Except PyExc (List JValue) :=
  goUsers policies ucs pcs users 0

/-- The configuration knobs of `app.core.config.Settings` consumed by the
normalizers (values are the environment-variable defaults unless a deployment
overrides them). -/
structure NormSettings where
  policyWrapperKeys : List String
  userWrapperKeys : List String
  policyLabelKeys : List String
  userLabelKeys : List String
  enableHeuristic : Bool
  minHeuristicArraySize : ℕ

/-- The default `Settings` values from `config.py`. -/
def defaultSettings : NormSettings where
  policyWrapperKeys := ["policies", "rules", "checks", "requirements", "constraints", "validations"]
  userWrapperKeys := ["users", "data", "records", "items", "entries", "people"]
  policyLabelKeys := ["name", "title", "id", "policy", "policy_id", "policy_name", "description"]
  userLabelKeys := ["user_id", "id", "email", "username", "name", "first_name", "last_name", "display_name"]
  enableHeuristic := true
  minHeuristicArraySize := 1

/-- Scalar test of `_derive_label`: `isinstance(value, (str, int, float))` —
bools are ints in Python. -/
def isLabelScalar : JValue → Bool
  | .str _ => true
  | .num _ => true
  | .bool _ => true
  | _ => false

def deriveLabelPreferred (kvs : List (String × JValue)) : List String → Option String
  | [] => none
  | k :: rest =>
    match jlookup k kvs with
    | some v => if isLabelScalar v then some (pyStr v) else deriveLabelPreferred kvs rest
    | none => deriveLabelPreferred kvs rest

def deriveLabelFallback : List (String × JValue) → Option String
  | [] => none
  | (k, v) :: rest =>
    if isLabelScalar v then some (k ++ ": " ++ pyStr v) else deriveLabelFallback rest

/-- `_derive_label`: first preferred key holding a scalar, else the first
scalar key-value pair, else `None`. -/
def deriveLabel (kvs : List (String × JValue)) (preferred : List String) : Option String :=
  match deriveLabelPreferred kvs preferred with
  | some s => some s
  | none => deriveLabelFallback kvs

/-- `label or fallback`: Python `or` also replaces an empty-string label. -/
def labelOr (label : Option String) (fallback : String) : String :=
  match label with
  | some s => if s = "" then fallback else s
  | none => fallback

mutual

/-- `_find_largest_array._search_recursive` on one value: dicts are scanned
key by key up to `max_depth`; everything else contributes nothing. -/
def searchRec (minSize maxDepth : ℕ) (v : JValue) (depth : ℕ) (path : String) :
    List (String × List JValue) :=
  match v with
  | .obj kvs => if depth > maxDepth then [] else searchKvs minSize maxDepth kvs depth path
  | _ => []

/-- The per-key loop: arrays of at least `min_size` are candidates (dot-joined
path recorded); nested dicts are recursed into; arrays are never entered. -/
def searchKvs (minSize maxDepth : ℕ) (kvs : List (String × JValue)) (depth : ℕ)
    (path : String) : List (String × List JValue) :=
  match kvs with
  | [] => []
  | (k, v) :: rest =>
    let cur := if path = "" then k else path ++ "." ++ k
    (match v with
     | .arr xs => if xs.length ≥ minSize then [(cur, xs)] else []
     | .obj kvs2 => searchRec minSize maxDepth (.obj kvs2) (depth + 1) cur
     | _ => []) ++ searchKvs minSize maxDepth rest depth path

end

/-- Python `max(candidates, key=len)`: the first candidate of maximal length
wins ties. -/
def pickLargest (cands : List (String × List JValue)) :
    Option (String × List JValue) :=
  cands.foldl (fun best c =>
    match best with
    | none => some c
    | some b => if c.2.length > b.2.length then some c else some b) none

/-- `_find_largest_array` (`max_depth` keeps its default 3 everywhere in the
repo): `(None, [])` when no candidate qualifies. -/
def findLargestArray (kvs : List (String × JValue)) (minSize : ℕ) :
    Option String × List JValue :=
  match pickLargest (searchRec minSize 3 (.obj kvs) 0 "") with
  | some (k, xs) => (some k, xs)
  | none => (none, [])

/-- First configured wrapper key whose value is a list (`normalize_to_list`
loop). -/
def wrapperHit (keys : List String) (kvs : List (String × JValue)) :
    Option (List JValue) :=
  match keys with
  | [] => none
  | k :: rest =>
    match jlookup k kvs with
    | some (.arr xs) => some xs
    | _ => wrapperHit rest kvs

/-- `FileParser.normalize_to_list` (the user-kind normalizer): lists pass
through unchanged (no dict filtering, no emptiness check), dicts try wrapper
keys then the largest-array heuristic (a falsy key path or empty winner is
ignored) then fall back to a single record, primitives are wrapped. -/
def normalizeToList (st : NormSettings) (data : JValue) : List JValue :=
  match data with
  | .arr xs => xs
  | .obj kvs =>
    (match wrapperHit st.userWrapperKeys kvs with
     | some xs => xs
     | none =>
       let heur : Option (List JValue) :=
         if st.enableHeuristic then
           match findLargestArray kvs st.minHeuristicArraySize with
           | (some k, xs) => if k ≠ "" ∧ xs.length > 0 then some xs else none
           | (none, _) => none
         else none
       match heur with
       | some xs => xs
       | none => [data])
  | v => [.obj [("value", v)]]

/-- One `_append_policy` call: the entry plus its provenance context
(label falls back to the positional `Policy #N`). -/
def appendPolicyCtx (st : NormSettings) (entry : JValue)
    (entryKvs : List (String × JValue)) (index : ℕ) (source : String)
    (policyId : Option ℤ) (extra : List (String × JValue)) : JValue :=
  .obj ([("label", .str (labelOr (deriveLabel entryKvs st.policyLabelKeys)
      ("Policy #" ++ toString (index + 1)))),
    ("source", .str source), ("index", .num index)] ++
    (match policyId with
     | some pid => [("policy_id", .num pid)]
     | none => []) ++ extra)

/-- The enumerate-and-filter loop shared by the list and wrapper branches of
`_normalize_policies_from_payload`: mapping elements become entries (with
contexts), non-mapping elements are skipped, positions preserved. -/
def appendDictItems (st : NormSettings) (source : String) (policyId : Option ℤ)
    (mkExtra : ℕ → List (String × JValue)) :
    List JValue → ℕ → ℕ → List JValue × List JValue
  | [], _, _ => ([], [])
  | item :: rest, pos, index =>
    match item with
    | .obj kvs =>
      let (es, cs) := appendDictItems st source policyId mkExtra rest (pos + 1) (index + 1)
      (.obj kvs :: es,
        appendPolicyCtx st (.obj kvs) kvs index source policyId (mkExtra pos) :: cs)
    | _ => appendDictItems st source policyId mkExtra rest (pos + 1) index

/-- First configured policy wrapper key holding a list, with the key. -/
def policyWrapperHit (keys : List String) (kvs : List (String × JValue)) :
    Option (String × List JValue) :=
  match keys with
  | [] => none
  | k :: rest =>
    match jlookup k kvs with
    | some (.arr xs) => some (k, xs)
    | _ => policyWrapperHit rest kvs

/-- `_normalize_policies_from_payload`: the policy-kind normalizer.  A list
keeps its mapping elements; a dict tries wrapper keys, then the heuristic,
then itself as a single policy; scalars raise; and an empty final entry list
raises `No policy entries found in payload`. -/
def finishPolicies (r : List JValue × List JValue) :
    Except PyExc (List JValue × List JValue) :=
  if r.1.isEmpty then .error (.valueError "No policy entries found in payload")
  else .ok r

def normalizePoliciesFromPayload (st : NormSettings) (payload : JValue)
    (source : String) (policyId : Option ℤ) :
    Except PyExc (List JValue × List JValue) :=
  match payload with
  | .arr items =>
    finishPolicies (appendDictItems st source policyId
      (fun pos => [("position", .num pos)]) items 0 0)
  | .obj kvs =>
    let viaWrapper : Option (List JValue × List JValue) :=
      match policyWrapperHit st.policyWrapperKeys kvs with
      | some (k, xs) => some (appendDictItems st source policyId
          (fun pos => [("section", .str k), ("position", .num pos)]) xs 0 0)
      | none => none
    let viaHeuristic : Option (List JValue × List JValue) :=
      match viaWrapper with
      | some _ => none
      | none =>
        if st.enableHeuristic then
          match findLargestArray kvs st.minHeuristicArraySize with
          | (some hk, xs) =>
            if hk ≠ "" ∧ xs.length > 0 then
              some (appendDictItems st source policyId
                (fun pos => [("section", .str hk), ("position", .num pos),
                  ("detected", .str "heuristic")]) xs 0 0)
            else none
          | (none, _) => none
        else none
    finishPolicies
      (match viaWrapper with
       | some r => r
       | none =>
         match viaHeuristic with
         | some r => r
         | none => ([.obj kvs], [appendPolicyCtx st (.obj kvs) kvs 0 source policyId []]))
  | _ => .error (.valueError "Policy file must contain object or array")

/-- Key access on an evaluation-result dictionary (`result["key"]`). -/
def jget (k : String) : JValue → Option JValue
  | .obj kvs => jlookup k kvs
  | _ => none

/-- `"key" in result`. -/
def hasKey (k : String) (v : JValue) : Bool := (jget k v).isSome

/-- Whether a call returned normally rather than raising. -/
def isOk {α : Type} : Except PyExc α → Bool
  | .ok _ => true
  | .error _ => false

theorem jsize_pos (v : JValue) : 1 ≤ jsize v := by
  cases v <;> simp [jsize]

theorem jlookup_jsize (k : String) (l : List (String × JValue)) (v : JValue)
    (h : jlookup k l = some v) : jsize v < jsizeFields l := by
  induction l with
  | nil => simp [jlookup] at h
  | cons p rest ih =>
    by_cases hk : p.1 = k
    · rw [show p = (p.1, p.2) from rfl, jlookup, if_pos hk] at h
      cases h
      simp [jsizeFields]
      omega
    · rw [show p = (p.1, p.2) from rfl, jlookup, if_neg hk] at h
      have := ih h
      simp [jsizeFields]
      omega

theorem asArr_jsize (k : String) (l : List (String × JValue)) (xs : List JValue)
    (h : asArr (jlookup k l) = some xs) : jsize (JValue.arr xs) < jsizeFields l := by
  cases hj : jlookup k l with
  | none => rw [hj] at h; simp [asArr] at h
  | some v =>
    rw [hj] at h
    cases v <;> simp [asArr] at h
    subst h
    exact jlookup_jsize k l _ hj

theorem mem_jsizeList (x : JValue) (xs : List JValue) (h : x ∈ xs) :
    jsize x < jsizeList xs := by
  induction xs with
  | nil => cases h
  | cons y ys ih =>
    rcases List.mem_cons.mp h with h1 | h1
    · subst h1; simp [jsizeList]; omega
    · have := ih h1; simp [jsizeList]; omega

theorem evalListWith_congr (f g : JValue → Except PyExc (Bool × JValue))
    (xs : List JValue) (h : ∀ x ∈ xs, f x = g x) :
    evalListWith f xs = evalListWith g xs := by
  induction xs with
  | nil => rfl
  | cons x rest ih =>
    simp only [evalListWith]
    rw [h x (List.mem_cons_self x rest), ih (fun y hy => h y (List.mem_cons_of_mem x hy))]

theorem evalCombWith_congr (f g : JValue → Except PyExc (Bool × JValue))
    (comb : List (Bool × JValue) → Bool × JValue) (v : JValue)
    (h : ∀ xs, v = .arr xs → ∀ x ∈ xs, f x = g x) :
    evalCombWith f comb v = evalCombWith g comb v := by
  cases v with
  | arr xs =>
    simp only [evalCombWith]
    rw [evalListWith_congr f g xs (h xs rfl)]
  | null => rfl
  | bool b => rfl
  | num q => rfl
  | str s => rfl
  | obj kvs => rfl

theorem evalNotWith_congr (f g : JValue → Except PyExc (Bool × JValue))
    (v : JValue) (h : f v = g v) : evalNotWith f v = evalNotWith g v := by
  simp only [evalNotWith, h]

/-- The depth bound of `evaluateF` is irrelevant once it is at least
`jsize node`: the recursion only ever descends into strict subvalues. -/
theorem evaluateF_irrel (user : JValue) :
    ∀ (f : ℕ) (node : JValue) (g : ℕ), jsize node ≤ f → jsize node ≤ g →
      evaluateF f user node = evaluateF g user node := by
  intro f
  induction f with
  | zero =>
    intro node g h1 _
    exact absurd h1 (by have := jsize_pos node; omega)
  | succ f ih =>
    intro node g h1 h2
    cases g with
    | zero => exact absurd h2 (by have := jsize_pos node; omega)
    | succ g =>
      cases node with
      | null => rfl
      | bool b => rfl
      | num q => rfl
      | str s => rfl
      | arr xs => rfl
      | obj kvs =>
        have hbf : jsizeFields kvs ≤ f := by simp [jsize] at h1; omega
        have hbg : jsizeFields kvs ≤ g := by simp [jsize] at h2; omega
        have harr : ∀ (xs : List JValue), jsizeList xs < jsizeFields kvs →
            evalListWith (evaluateF f user) xs = evalListWith (evaluateF g user) xs := by
          intro xs hxs
          apply evalListWith_congr
          intro x hx
          have := mem_jsizeList x xs hx
          exact ih x g (by omega) (by omega)
        have hcomb : ∀ (v : JValue) (comb : List (Bool × JValue) → Bool × JValue),
            jsize v < jsizeFields kvs →
            evalCombWith (evaluateF f user) comb v = evalCombWith (evaluateF g user) comb v := by
          intro v comb hv
          apply evalCombWith_congr
          intro xs hxv x hx
          subst hxv
          have h1 := mem_jsizeList x xs hx
          simp [jsize] at hv
          exact ih x g (by omega) (by omega)
        simp only [evaluateF]
        cases hr : asArr (jlookup "rules" kvs) with
        | some xs =>
          have hs := asArr_jsize "rules" kvs xs hr
          cases hmt : matchTypeStr kvs "ALL" == "ANY" <;>
            simp only [hmt, if_true, if_false, Bool.false_eq_true] <;>
            exact hcomb (.arr xs) _ hs
        | none =>
        cases hc : asArr (jlookup "conditions" kvs) with
        | some xs =>
          have hs := asArr_jsize "conditions" kvs xs hc
          cases hmt : (matchTypeStr kvs "AND" == "ANY" || matchTypeStr kvs "AND" == "OR") <;>
            simp only [hmt, if_true, if_false, Bool.false_eq_true] <;>
            exact hcomb (.arr xs) _ hs
        | none =>
        cases h3 : jlookup "condition" kvs with
        | some v =>
          have := jlookup_jsize "condition" kvs v h3
          exact ih v g (by omega) (by omega)
        | none =>
        cases h4 : jlookup "allOf" kvs with
        | some v =>
          have := jlookup_jsize "allOf" kvs v h4
          exact hcomb v _ (by omega)
        | none =>
        cases h5 : jlookup "anyOf" kvs with
        | some v =>
          have := jlookup_jsize "anyOf" kvs v h5
          exact hcomb v _ (by omega)
        | none =>
        cases h6 : jlookup "not" kvs with
        | some v =>
          have := jlookup_jsize "not" kvs v h6
          exact evalNotWith_congr _ _ v (ih v g (by omega) (by omega))
        | none =>
        cases h7 : jlookup "and" kvs with
        | some v =>
          have := jlookup_jsize "and" kvs v h7
          exact hcomb v _ (by omega)
        | none =>
        cases h8 : jlookup "or" kvs with
        | some v =>
          have := jlookup_jsize "or" kvs v h8
          exact hcomb v _ (by omega)
        | none => rfl

theorem evaluateF_eq_evaluate (user node : JValue) (f : ℕ) (h : jsize node ≤ f) :
    evaluateF f user node = evaluate user node :=
  evaluateF_irrel user f node (jsize node) h (Nat.le_refl _)

/-- One-step unfolding of `evaluate` on a mapping node, phrased through the
per-combinator wrappers: the dispatch of the Python `evaluate` body. -/
theorem evaluate_obj (user : JValue) (kvs : List (String × JValue)) :
    evaluate user (.obj kvs) =
      (match asArr (jlookup "rules" kvs) with
       | some xs =>
         if matchTypeStr kvs "ALL" == "ANY" then evalAnyOf user (.arr xs)
         else evalAllOf user (.arr xs)
       | none =>
         match asArr (jlookup "conditions" kvs) with
         | some xs =>
           if matchTypeStr kvs "AND" == "ANY" || matchTypeStr kvs "AND" == "OR" then
             evalAnyOf user (.arr xs)
           else evalAllOf user (.arr xs)
         | none =>
           match jlookup "condition" kvs with
           | some v => evaluate user v
           | none =>
             match jlookup "allOf" kvs with
             | some v => evalAllOf user v
             | none =>
               match jlookup "anyOf" kvs with
               | some v => evalAnyOf user v
               | none =>
                 match jlookup "not" kvs with
                 | some v => evalNot user v
                 | none =>
                   match jlookup "and" kvs with
                   | some v => evalAllOf user v
                   | none =>
                     match jlookup "or" kvs with
                     | some v => evalAnyOf user v
                     | none => evaluateCondition user kvs) := by
  have hj : jsize (JValue.obj kvs) = jsizeFields kvs + 1 := by
    simp [jsize]
  have harr : ∀ (xs : List JValue) (comb : List (Bool × JValue) → Bool × JValue),
      jsize (JValue.arr xs) < jsizeFields kvs + 1 →
      evalCombWith (evaluateF (jsizeFields kvs) user) comb (.arr xs) =
        evalCombWith (evaluate user) comb (.arr xs) := by
    intro xs comb hxs
    apply evalCombWith_congr
    intro ys hys x hx
    have hxy : xs = ys := by injection hys
    subst hxy
    have h1 := mem_jsizeList x xs hx
    simp [jsize] at hxs
    exact evaluateF_eq_evaluate user x (jsizeFields kvs) (by omega)
  have hcomb : ∀ (v : JValue) (comb : List (Bool × JValue) → Bool × JValue),
      jsize v < jsizeFields kvs + 1 →
      evalCombWith (evaluateF (jsizeFields kvs) user) comb v =
        evalCombWith (evaluate user) comb v := by
    intro v comb hv
    apply evalCombWith_congr
    intro xs hxv x hx
    subst hxv
    have h1 := mem_jsizeList x xs hx
    simp [jsize] at hv
    exact evaluateF_eq_evaluate user x (jsizeFields kvs) (by omega)
  rw [evaluate, hj]
  simp only [evaluateF]
  cases hr : asArr (jlookup "rules" kvs) with
  | some xs =>
    have hs := asArr_jsize "rules" kvs xs hr
    cases hmt : matchTypeStr kvs "ALL" == "ANY" <;>
      simp only [hmt, if_true, if_false, Bool.false_eq_true] <;>
      exact harr xs _ (by omega)
  | none =>
  cases hc : asArr (jlookup "conditions" kvs) with
  | some xs =>
    have hs := asArr_jsize "conditions" kvs xs hc
    cases hmt : (matchTypeStr kvs "AND" == "ANY" || matchTypeStr kvs "AND" == "OR") <;>
      simp only [hmt, if_true, if_false, Bool.false_eq_true] <;>
      exact harr xs _ (by omega)
  | none =>
  cases h3 : jlookup "condition" kvs with
  | some v =>
    have := jlookup_jsize "condition" kvs v h3
    exact evaluateF_eq_evaluate user v (jsizeFields kvs) (by omega)
  | none =>
  cases h4 : jlookup "allOf" kvs with
  | some v =>
    have := jlookup_jsize "allOf" kvs v h4
    exact hcomb v _ (by omega)
  | none =>
  cases h5 : jlookup "anyOf" kvs with
  | some v =>
    have := jlookup_jsize "anyOf" kvs v h5
    exact hcomb v _ (by omega)
  | none =>
  cases h6 : jlookup "not" kvs with
  | some v =>
    have := jlookup_jsize "not" kvs v h6
    exact evalNotWith_congr _ _ v
      (evaluateF_eq_evaluate user v (jsizeFields kvs) (by omega))
  | none =>
  cases h7 : jlookup "and" kvs with
  | some v =>
    have := jlookup_jsize "and" kvs v h7
    exact hcomb v _ (by omega)
  | none =>
  cases h8 : jlookup "or" kvs with
  | some v =>
    have := jlookup_jsize "or" kvs v h8
    exact hcomb v _ (by omega)
  | none => rfl

/-- C9: for every record, a policy node `not: X` where `X` is `null` or any
non-mapping value yields `passed = false`, because the negated child
evaluates vacuously true (`empty_node` / `non_dict_node`); such a node fails
against every record. -/
theorem c9_not_of_non_mapping (user X : JValue) (h : X.isObj = false) :
    (evaluate user (.obj [("not", X)])).map Prod.fst = .ok false := by
  rw [evaluate_obj]
  simp [jlookup, asArr]
  cases X with
  | obj kvs => simp [JValue.isObj] at h
  | null => rfl
  | bool b => rfl
  | num q => rfl
  | str s => rfl
  | arr xs => rfl

theorem c9_witness :
    (evaluate (.obj []) (.obj [("not", .num 5)])).map Prod.fst = .ok false :=
  c9_not_of_non_mapping (.obj []) (.num 5) (by rfl)

/-- C10: for every non-null expected value, `contains_any` with a null actual
yields `false` without raising: `None` coerces to the empty list, whose
generator never touches the expected list. -/
theorem c10_contains_any_null_actual (b : JValue) (h : b.isNull = false) :
    containsAnyOp .null b = .ok false ∧ coerceToList .null = [] := by
  constructor
  · rw [containsAnyOp, h]
    rfl
  · rfl

theorem c10_witness :
    containsAnyOp .null (.arr [.arr [.num 1]]) = .ok false ∧
      coerceToList .null = [] :=
  c10_contains_any_null_actual (.arr [.arr [.num 1]]) (by rfl)

theorem evalListWith_ok_length (f : JValue → Except PyExc (Bool × JValue)) :
    ∀ (xs : List JValue) (rs : List (Bool × JValue)),
      evalListWith f xs = .ok rs → rs.length = xs.length := by
  intro xs
  induction xs with
  | nil => intro rs h; cases h; rfl
  | cons x rest ih =>
    intro rs h
    rw [evalListWith] at h
    cases hx : f x with
    | error e => rw [hx] at h; cases h
    | ok r =>
      rw [hx] at h
      cases hr : evalListWith f rest with
      | error e => rw [hr] at h; cases h
      | ok rs2 =>
        rw [hr] at h
        cases h
        simp [ih rs2 hr]

theorem evalListWith_ok_get (f : JValue → Except PyExc (Bool × JValue)) :
    ∀ (xs : List JValue) (rs : List (Bool × JValue)),
      evalListWith f xs = .ok rs →
      ∀ (i : ℕ) (hi : i < xs.length) (hri : i < rs.length),
        f (xs.get ⟨i, hi⟩) = .ok (rs.get ⟨i, hri⟩) := by
  intro xs
  induction xs with
  | nil => intro rs h i hi; cases hi
  | cons x rest ih =>
    intro rs h i hi hri
    rw [evalListWith] at h
    cases hx : f x with
    | error e => rw [hx] at h; cases h
    | ok r =>
      rw [hx] at h
      cases hr : evalListWith f rest with
      | error e => rw [hr] at h; cases h
      | ok rs2 =>
        rw [hr] at h
        cases h
        cases i with
        | zero => simpa using hx
        | succ j =>
          have hj : j < rest.length := by simpa using hi
          have hrj : j < rs2.length := by simpa using hri
          simpa using ih rs2 hr j hj hrj

/-- C7: the AND-combinator over an empty child list passes and the
OR-combinator fails, both with empty children traces; over any child list
whose loop completes, every child is evaluated in order with no
short-circuit (one child trace per child, in order) and the combined verdict
is the conjunction (resp. disjunction) of the children's verdicts. -/
theorem c7_combinators :
    (∀ user : JValue,
      evalAllOf user (.arr []) =
        .ok (true, .obj [("type", .str "allOf"), ("passed", .bool true),
          ("conditions", .arr [])]) ∧
      evalAnyOf user (.arr []) =
        .ok (false, .obj [("type", .str "anyOf"), ("passed", .bool false),
          ("conditions", .arr [])])) ∧
    (∀ (user : JValue) (xs : List JValue) (rs : List (Bool × JValue)),
      evalList user xs = .ok rs →
      rs.length = xs.length ∧
      (∀ (i : ℕ) (hi : i < xs.length) (hri : i < rs.length),
        evaluate user (xs.get ⟨i, hi⟩) = .ok (rs.get ⟨i, hri⟩)) ∧
      evalAllOf user (.arr xs) =
        .ok (rs.all (·.1), .obj [("type", .str "allOf"),
          ("passed", .bool (rs.all (·.1))), ("conditions", .arr (rs.map (·.2)))]) ∧
      evalAnyOf user (.arr xs) =
        .ok (rs.any (·.1), .obj [("type", .str "anyOf"),
          ("passed", .bool (rs.any (·.1))), ("conditions", .arr (rs.map (·.2)))])) := by
  constructor
  · intro user
    exact ⟨rfl, rfl⟩
  · intro user xs rs h
    refine ⟨evalListWith_ok_length _ xs rs h, evalListWith_ok_get _ xs rs h, ?_, ?_⟩
    · show (evalListWith (evaluate user) xs).map combineAll = _
      rw [show evalListWith (evaluate user) xs = .ok rs from h]
      rfl
    · show (evalListWith (evaluate user) xs).map combineAny = _
      rw [show evalListWith (evaluate user) xs = .ok rs from h]
      rfl

theorem c7_witness :
    evalAllOf (.obj []) (.arr []) =
      .ok (true, .obj [("type", .str "allOf"), ("passed", .bool true),
        ("conditions", .arr [])]) ∧
    (evalList (.obj []) [.null] = .ok [(true, .obj [("result", .str "empty_node")])] →
      evalAllOf (.obj []) (.arr [.null]) =
        .ok (true, .obj [("type", .str "allOf"), ("passed", .bool true),
          ("conditions", .arr [.obj [("result", .str "empty_node")]])])) := by
  constructor
  · exact (c7_combinators.1 (.obj [])).1
  · intro h
    have h2 := (c7_combinators.2 (.obj []) [.null]
      [(true, .obj [("result", .str "empty_node")])] h).2.2.1
    simpa using h2

/-- C2 (counterexample): against the empty record, the policy
`anyOf: []` fails (`passed = false`) yet its `failed_conditions` list is
empty — no failing leaf condition exists in its trace — refuting the claimed
equivalence between an empty `failed_conditions` and `passed = true`. -/
theorem c2_counterexample :
    (evaluateUserAgainstPolicy (.obj []) (.obj [("anyOf", .arr [])])).map
        (fun r => (jget "passed" r, jget "failed_conditions" r)) =
      .ok (some (.bool false), some (.arr [])) := by rfl

/-- C2 (amended): `failed_conditions` is empty whenever `passed` is true;
the converse fails (see the counterexample), since a pair can fail with no
failing leaf condition in its trace. -/
theorem c2_passed_failed_conditions (u p r : JValue)
    (h : evaluateUserAgainstPolicy u p = .ok r)
    (hp : jget "passed" r = some (.bool true)) :
    jget "failed_conditions" r = some (.arr []) := by
  rw [evaluateUserAgainstPolicy] at h
  cases he : evaluate u p with
  | error e => rw [he] at h; cases h
  | ok pd =>
    rw [he] at h
    obtain ⟨passed, details⟩ := pd
    cases h
    simp [jget, jlookup] at hp
    simp [jget, jlookup, hp]

theorem c2_witness :
    jget "failed_conditions"
      (.obj [("user_data", .obj []), ("policy", .null), ("passed", .bool true),
        ("details", .obj [("result", .str "empty_node")]),
        ("failed_conditions", .arr [])]) = some (.arr []) :=
  c2_passed_failed_conditions (.obj []) .null _ (by rfl) (by rfl)

/-- C4 (counterexample): the user-kind normalizer returns the empty list as a
success for an empty array input — no error is signalled — refuting the
claimed never-empty-without-error contract for the user kind. -/
theorem c4_counterexample :
    normalizeToList defaultSettings (.arr []) = [] := by rfl

/-- C4 (amended): the policy-kind normalizer keeps the contract — whenever
`_normalize_policies_from_payload` returns successfully, its entry list is
non-empty (an empty outcome raises `No policy entries found in payload`, a
scalar payload raises `Policy file must contain object or array`); the
user-kind `normalize_to_list` does not (see the counterexample). -/
theorem finishPolicies_ok (r : List JValue × List JValue)
    (es cs : List JValue) (h : finishPolicies r = .ok (es, cs)) : es ≠ [] := by
  rw [finishPolicies] at h
  by_cases hni : r.1.isEmpty
  · rw [if_pos hni] at h
    cases h
  · rw [if_neg hni] at h
    cases h
    simpa using hni

theorem c4_policy_entries_nonempty (st : NormSettings) (payload : JValue)
    (source : String) (pid : Option ℤ) (es cs : List JValue)
    (h : normalizePoliciesFromPayload st payload source pid = .ok (es, cs)) :
    es ≠ [] := by
  cases payload with
  | null => cases h
  | bool b => cases h
  | num q => cases h
  | str s => cases h
  | arr items => exact finishPolicies_ok _ es cs h
  | obj kvs => exact finishPolicies_ok _ es cs h

theorem c4_witness :
    normalizePoliciesFromPayload defaultSettings
        (.obj [("policies", .arr [.obj [("age", .num 18)]])]) "src" none =
      .ok ([.obj [("age", .num 18)]],
        [.obj [("label", .str "age: 18"), ("source", .str "src"),
          ("index", .num 0), ("section", .str "policies"),
          ("position", .num 0)]]) ∧
    [JValue.obj [("age", .num 18)]] ≠ [] :=
  ⟨by rfl,
    c4_policy_entries_nonempty defaultSettings
      (.obj [("policies", .arr [.obj [("age", .num 18)]])]) "src" none
      [.obj [("age", .num 18)]]
      [.obj [("label", .str "age: 18"), ("source", .str "src"),
        ("index", .num 0), ("section", .str "policies"), ("position", .num 0)]]
      (by rfl)⟩

/-- C3 (counterexample): the node `{and: [], not: {}}` evaluates to
`passed = false` against the empty record, while the AND-combinator over the
empty `and` list yields `passed = true` — so the dispatch did not go to the
AND-combinator as claimed. -/
theorem c3_counterexample :
    (evaluate (.obj []) (.obj [("and", .arr []), ("not", .obj [])])).map Prod.fst =
        .ok false ∧
      (evalAllOf (.obj []) (.arr [])).map Prod.fst = .ok true := ⟨by rfl, by rfl⟩

/-- C3 (amended): `not` is checked before `and` and `or`: a mapping node
carrying `not` together with `and` (or `or`), and none of
`rules`/`conditions`/`condition`/`allOf`/`anyOf`, dispatches to the
NOT-combinator over `node["not"]`, not to the AND/OR-combinator.
(`allOf`/`anyOf` do take precedence over `not`, as the spec says.) -/
theorem c3_not_checked_before_and_or (user : JValue)
    (kvs : List (String × JValue)) (v w : JValue)
    (hrules : asArr (jlookup "rules" kvs) = none)
    (hconds : asArr (jlookup "conditions" kvs) = none)
    (hcond : jlookup "condition" kvs = none)
    (hallOf : jlookup "allOf" kvs = none)
    (hanyOf : jlookup "anyOf" kvs = none)
    (hnot : jlookup "not" kvs = some v)
    (hand : jlookup "and" kvs = some w ∨ jlookup "or" kvs = some w) :
    evaluate user (.obj kvs) = evalNot user v := by
  rw [evaluate_obj, hrules, hconds, hcond, hallOf, hanyOf, hnot]

theorem c3_witness :
    evaluate (.obj []) (.obj [("and", .arr []), ("not", .obj [])]) =
      evalNot (.obj []) (.obj []) :=
  c3_not_checked_before_and_or (.obj []) [("and", .arr []), ("not", .obj [])]
    (.obj []) (.arr []) (by rfl) (by rfl) (by rfl) (by rfl) (by rfl) (by rfl)
    (Or.inl (by rfl))

/-- C5 (counterexample): against the empty record, the implicit policy
`{age: 18, status: "active"}` and the explicit
`{allOf: [{field,op,value}...]}` produce different results: the traces have
type `implicit_conditions` versus `allOf` (and the implicit form's inner
condition entries carry no `type` tag), so the results are not identical. -/
theorem c5_counterexample :
    (evaluate (.obj []) (.obj [("age", .num 18), ("status", .str "active")])).map
        (fun pr => jget "type" pr.2) = .ok (some (.str "implicit_conditions")) ∧
    (evaluate (.obj [])
        (.obj [("allOf", .arr
          [.obj [("field", .str "age"), ("op", .str "=="), ("value", .num 18)],
           .obj [("field", .str "status"), ("op", .str "=="),
             ("value", .str "active")]])])).map
        (fun pr => jget "type" pr.2) = .ok (some (.str "allOf")) ∧
    evaluate (.obj []) (.obj [("age", .num 18), ("status", .str "active")]) ≠
      evaluate (.obj [])
        (.obj [("allOf", .arr
          [.obj [("field", .str "age"), ("op", .str "=="), ("value", .num 18)],
           .obj [("field", .str "status"), ("op", .str "=="),
             ("value", .str "active")]])]) := by
  refine ⟨by rfl, by rfl, ?_⟩
  intro h
  have h2 := congrArg (fun r => r.map (fun pr : Bool × JValue => jget "type" pr.2)) h
  have e1 : (evaluate (.obj []) (.obj [("age", .num 18), ("status", .str "active")])).map
      (fun pr : Bool × JValue => jget "type" pr.2) =
      .ok (some (.str "implicit_conditions")) := by rfl
  have e2 : (evaluate (.obj [])
      (.obj [("allOf", .arr
        [.obj [("field", .str "age"), ("op", .str "=="), ("value", .num 18)],
         .obj [("field", .str "status"), ("op", .str "=="),
           ("value", .str "active")]])])).map
      (fun pr : Bool × JValue => jget "type" pr.2) = .ok (some (.str "allOf")) := by rfl
  simp only [] at h2
  rw [e1, e2] at h2
  simp at h2

/-- C5 (amended): the two forms agree on the pass/fail verdict for every
record (each is the conjunction of the same two equality checks), though
their traces — and hence their collected failed conditions — differ. -/
theorem c5_same_verdict (R : JValue) :
    (evaluate R (.obj [("age", .num 18), ("status", .str "active")])).map Prod.fst =
      (evaluate R
        (.obj [("allOf", .arr
          [.obj [("field", .str "age"), ("op", .str "=="), ("value", .num 18)],
           .obj [("field", .str "status"), ("op", .str "=="),
             ("value", .str "active")]])])).map Prod.fst := by
  simp [evaluate_obj, jlookup, asArr, evalAllOf, evalCombWith, evalListWith,
    combineAll, evaluateCondition, findKeyValue, FIELD_KEYS, OP_KEYS, VALUE_KEYS,
    JValue.isNull, evaluateImplicit, implicitConds, metadataKeys, truthy,
    getNestedValue, normalizeOperator, pyStr, pyTrim, trimList, lowerStr,
    replaceSpaceUnderscore, strAssoc, OPERATOR_ALIASES, OPS, OPS_TABLE, opsAssoc,
    ruleOperator, ruleNormalizedOperator, ruleOpFn, applyOpTrace,
    eqOp, optStrVal, Except.map, isPyWS]

/-- C1: evaluating `>` with `actual = "2024-01-01T00:00:00Z"` and
`expected = "2023-01-01T00:00:00"` — both operands do parse as timestamps,
the first aware (UTC) and the second naive — does **not** yield
`passed = true`: Python refuses to order an offset-aware and an offset-naive
`datetime`, the resulting `TypeError` is caught by `_evaluate_condition`,
and the condition comes back `passed = false` with the comparison error
captured in the trace.  (The claim's second half holds: two non-parseable
non-numeric strings also produce `passed = false` with the coercion error
captured, never raised.) -/
theorem c1_datetime_comparison :
    (tryParseDatetime (.str "2024-01-01T00:00:00Z")).isSome = true ∧
    (tryParseDatetime (.str "2023-01-01T00:00:00")).isSome = true ∧
    (evaluate (.obj [("ts", .str "2024-01-01T00:00:00Z")])
        (.obj [("field", .str "ts"), ("op", .str ">"),
          ("value", .str "2023-01-01T00:00:00")])).map
        (fun pr => (pr.1, jget "passed" pr.2, jget "error" pr.2)) =
      .ok (false, some (.bool false),
        some (.str "cannot compare offset-naive and offset-aware datetimes")) ∧
    (evaluate (.obj [("ts", .str "banana")])
        (.obj [("field", .str "ts"), ("op", .str ">"),
          ("value", .str "cherry")])).map
        (fun pr => (pr.1, jget "passed" pr.2, (jget "error" pr.2).isSome)) =
      .ok (false, some (.bool false), true) :=
  ⟨by rfl, by rfl, by rfl, by rfl⟩

theorem pyFloat_catchable (v : JValue) (e : PyExc) (h : pyFloat v = .error e) :
    catchable e = true := by
  cases v with
  | num q => cases h
  | bool b => cases h
  | null => cases h; rfl
  | arr xs => cases h; rfl
  | obj kvs => cases h; rfl
  | str s =>
    rw [pyFloat] at h
    cases hp : parseFloatStr s with
    | some q => rw [hp] at h; cases h
    | none => rw [hp] at h; cases h; rfl

theorem dtCompare_catchable (da db : PyDateTime) (e : PyExc)
    (h : dtCompare da db = .error e) : catchable e = true := by
  obtain ⟨s1, o1⟩ := da
  obtain ⟨s2, o2⟩ := db
  cases o1 <;> cases o2 <;> simp [dtCompare] at h <;> rw [← h] <;> rfl

theorem pyCompare_catchable (a b : JValue) (e : PyExc)
    (h : pyCompare a b = .error e) : catchable e = true := by
  rw [pyCompare] at h
  have hfloat : ∀ (h2 : (do
      let fa ← pyFloat a
      let fb ← pyFloat b
      Except.ok (qcmp fa fb) : Except PyExc Ordering) = .error e), catchable e = true := by
    intro h2
    cases hfa : pyFloat a with
    | error e1 =>
      rw [hfa] at h2
      cases h2
      exact pyFloat_catchable a _ hfa
    | ok fa =>
      rw [hfa] at h2
      cases hfb : pyFloat b with
      | error e2 =>
        rw [hfb] at h2
        cases h2
        exact pyFloat_catchable b _ hfb
      | ok fb =>
        rw [hfb] at h2
        cases h2
  cases hta : tryParseDatetime a with
  | some da =>
    cases htb : tryParseDatetime b with
    | some db =>
      rw [hta, htb] at h
      exact dtCompare_catchable da db e h
    | none =>
      rw [hta, htb] at h
      exact hfloat h
  | none =>
    rw [hta] at h
    cases htb : tryParseDatetime b with
    | some db => rw [htb] at h; exact hfloat h
    | none => rw [htb] at h; exact hfloat h

theorem pyIn_catchable (a b : JValue) (e : PyExc) (h : pyIn a b = .error e) :
    catchable e = true := by
  cases b <;> cases a <;> cases h <;> rfl

theorem containsAnyGo_catchable (bl : List JValue) :
    ∀ (xs : List JValue) (e : PyExc), containsAnyGo bl xs = .error e →
      catchable e = true := by
  intro xs
  induction xs with
  | nil => intro e h; cases h
  | cons x rest ih =>
    intro e h
    rw [containsAnyGo] at h
    cases h1 : bl.any unhashable with
    | true => simp [h1] at h; rw [← h]; rfl
    | false =>
      cases h2 : unhashable x with
      | true => simp [h1, h2] at h; rw [← h]; rfl
      | false =>
        cases h3 : bl.any (pyEq x) with
        | true => simp [h1, h2, h3] at h
        | false =>
          simp [h1, h2, h3] at h
          exact ih e h

theorem containsOp_catchable (a b : JValue) (e : PyExc)
    (h : containsOp a b = .error e) : catchable e = true := by
  cases a <;> cases b <;> cases h <;> rfl

theorem notContainsOp_catchable (a b : JValue) (e : PyExc)
    (h : notContainsOp a b = .error e) : catchable e = true := by
  cases a <;> cases b <;> cases h <;> rfl

set_option maxHeartbeats 1000000 in
/-- Every registered operator other than `regex` raises only exception
classes that `_evaluate_condition` catches; an uncaught error out of a
registered operator is a `re.error` from an invalid regex pattern. -/
theorem ops_uncaught_is_regex (name : String)
    (f : JValue → JValue → Except PyExc Bool) (hf : OPS name = some f)
    (a b : JValue) (e : PyExc) (he : f a b = .error e)
    (hc : catchable e = false) : ∃ m, e = .reError m := by
  have hord : ∀ (g : Ordering → Bool)
      (h2 : (pyCompare a b).map g = Except.error e), False := by
    intro g h2
    cases hpc : pyCompare a b with
    | ok o => rw [hpc] at h2; cases h2
    | error e2 =>
      rw [hpc] at h2
      cases h2
      rw [pyCompare_catchable a b _ hpc] at hc
      cases hc
  have hin : ∀ (h2 : pyIn a b = Except.error e), False := by
    intro h2
    rw [pyIn_catchable a b e h2] at hc
    cases hc
  have hmem : f ∈ OPS_TABLE.map Prod.snd := by
    rw [OPS] at hf
    clear he
    generalize OPS_TABLE = tbl at hf ⊢
    induction tbl with
    | nil => cases hf
    | cons p rest ih =>
      rw [opsAssoc] at hf
      by_cases hk : p.1 = name
      · rw [if_pos hk] at hf
        cases hf
        exact List.mem_cons_self _ _
      · rw [if_neg hk] at hf
        exact List.mem_cons_of_mem _ (ih hf)
  clear hf
  rw [show OPS_TABLE.map Prod.snd = [eqOp, neOp, gtOp, ltOp, geOp, leOp, inOp,
    notInOp, containsOp, notContainsOp, regexOp, existsOp, notExistsOp,
    startsWithOp, endsWithOp, isEmptyOp, isNotEmptyOp, containsAnyOp] from rfl] at hmem
  simp only [List.mem_cons, List.not_mem_nil, or_false] at hmem
  rcases hmem with rfl | rfl | rfl | rfl | rfl | rfl | rfl | rfl | rfl | rfl |
    rfl | rfl | rfl | rfl | rfl | rfl | rfl | rfl
  · cases he
  · cases he
  · rw [gtOp] at he
    cases hn : (a.isNull || b.isNull) with
    | true => simp [hn] at he
    | false => simp [hn] at he; exact absurd he (by intro h2; exact hord _ h2)
  · rw [ltOp] at he
    cases hn : (a.isNull || b.isNull) with
    | true => simp [hn] at he
    | false => simp [hn] at he; exact absurd he (by intro h2; exact hord _ h2)
  · rw [geOp] at he
    cases hn : (a.isNull || b.isNull) with
    | true => simp [hn] at he
    | false => simp [hn] at he; exact absurd he (by intro h2; exact hord _ h2)
  · rw [leOp] at he
    cases hn : (a.isNull || b.isNull) with
    | true => simp [hn] at he
    | false => simp [hn] at he; exact absurd he (by intro h2; exact hord _ h2)
  · rw [inOp] at he
    cases hn : b.isNull with
    | true => simp [hn] at he
    | false => simp [hn] at he; exact absurd he (fun h2 => hin h2)
  · rw [notInOp] at he
    cases hn : b.isNull with
    | true => simp [hn] at he
    | false =>
      simp [hn] at he
      cases hpi : pyIn a b with
      | ok r => rw [hpi] at he; cases he
      | error e2 => rw [hpi] at he; cases he; exact absurd (hin hpi) id
  · rw [containsOp_catchable a b e he] at hc
    cases hc
  · rw [notContainsOp_catchable a b e he] at hc
    cases hc
  · rw [regexOp] at he
    cases hn : a.isNull with
    | true => simp [hn] at he
    | false =>
      simp [hn] at he
      cases hrc : regexCompile (pyStr b) with
      | some pat => rw [hrc] at he; cases he
      | none => rw [hrc] at he; cases he; exact ⟨_, rfl⟩
  · cases he
  · cases he
  · rw [startsWithOp] at he
    cases hn : a.isNull with
    | true => simp [hn] at he
    | false => simp [hn] at he
  · rw [endsWithOp] at he
    cases hn : a.isNull with
    | true => simp [hn] at he
    | false => simp [hn] at he
  · rw [isEmptyOp] at he
    cases hn : a.isNull with
    | true => simp [hn] at he
    | false => simp [hn] at he
  · rw [isNotEmptyOp] at he
    cases hn : a.isNull with
    | true => simp [hn] at he
    | false => simp [hn] at he
  · rw [containsAnyOp] at he
    cases hn : b.isNull with
    | true => simp [hn] at he
    | false =>
      simp [hn] at he
      rw [containsAnyGo_catchable _ _ _ he] at hc
      cases hc

theorem evaluateImplicit_isOk (user : JValue) (rule : List (String × JValue)) :
    isOk (evaluateImplicit user rule) = true := by
  rw [evaluateImplicit]
  split <;> rfl

theorem ruleOpFn_registered (rule : List (String × JValue))
    (f : JValue → JValue → Except PyExc Bool) (h : ruleOpFn rule = some f) :
    ∃ s, OPS s = some f := by
  rw [ruleOpFn] at h
  cases hn : ruleNormalizedOperator rule with
  | none => rw [hn] at h; cases h
  | some s =>
    rw [hn] at h
    dsimp only at h
    by_cases hs : s = ""
    · rw [if_pos hs] at h; cases h
    · rw [if_neg hs] at h; exact ⟨s, h⟩

theorem applyOpTrace_error (f : JValue → JValue → Except PyExc Bool)
    (fieldv : JValue) (opn : Option String) (expected actual : JValue)
    (e : PyExc) (hreg : ∃ s, OPS s = some f)
    (h : applyOpTrace f fieldv opn expected actual = .error e) :
    ∃ m, e = .reError m := by
  rw [applyOpTrace] at h
  cases hfe : f actual expected with
  | ok p => rw [hfe] at h; cases h
  | error e2 =>
    rw [hfe] at h
    cases hcat : catchable e2 with
    | true => simp [hcat] at h
    | false =>
      simp [hcat] at h
      obtain ⟨s, hs⟩ := hreg
      rw [← h]
      exact ops_uncaught_is_regex s f hs actual expected e2 hfe hcat

theorem applyOpTrace_ok (f : JValue → JValue → Except PyExc Bool)
    (fieldv : JValue) (opn : Option String) (expected actual : JValue)
    (p : Bool) (t : JValue)
    (h : applyOpTrace f fieldv opn expected actual = .ok (p, t))
    (herr : (jget "error" t).isSome = true) : p = false := by
  rw [applyOpTrace] at h
  cases hfe : f actual expected with
  | ok p2 =>
    rw [hfe] at h
    cases h
    simp [jget, jlookup] at herr
  | error e2 =>
    rw [hfe] at h
    cases hcat : catchable e2 with
    | true => simp [hcat] at h; exact h.1
    | false => simp [hcat] at h

/-- C6 (amended): a dispatch error inside `_evaluate_condition` — unknown
operator or a caught coercion/comparison failure — is recorded in the trace
with `passed = false`, and any trace carrying an `error` field has
`passed = false`; the only ways an exception escapes the condition boundary
are a `re.error` from an invalid regex pattern (not in the caught exception
classes) and an exception out of field resolution on a truthy non-string
field key (raised before the `try` block). -/
theorem c6_condition_error_capture (user : JValue)
    (rule : List (String × JValue)) :
    (∀ e : PyExc, evaluateCondition user rule = .error e →
      (∃ m, e = .reError m) ∨
        getNestedValue user (findKeyValue rule FIELD_KEYS) = .error e) ∧
    (∀ (p : Bool) (t : JValue), evaluateCondition user rule = .ok (p, t) →
      (jget "error" t).isSome = true → p = false) := by
  constructor
  · intro e h
    rw [evaluateCondition] at h
    split at h
    · cases hI : evaluateImplicit user rule with
      | ok pt => rw [hI] at h; cases h
      | error e2 =>
        have := evaluateImplicit_isOk user rule
        rw [hI] at this
        cases this
    · split at h
      · rename_i heq
        cases h
        split at heq
        · exact Or.inr heq
        · cases heq
      · split at h
        · cases h
        · rename_i f heq2
          exact Or.inl (applyOpTrace_error f _ _ _ _ e
            (ruleOpFn_registered rule f heq2) h)
  · intro p t h herr
    rw [evaluateCondition] at h
    split at h
    · rw [evaluateImplicit] at h
      split at h
      · cases h
        simp [jget, jlookup] at herr
      · cases h
        simp [jget, jlookup] at herr
    · split at h
      · cases h
      · split at h
        · cases h
          rfl
        · rename_i f heq2
          exact applyOpTrace_ok f _ _ _ _ p t h herr

/-- C6 (counterexample): a leaf rule using the `regex` operator with the
invalid pattern `[` and a non-null actual raises `re.error`, which is not in
the caught `(TypeError, ValueError, AttributeError)` classes: the exception
escapes the condition boundary (no trace is produced), aborts the enclosing
combinator loop — sibling conditions are not evaluated — and propagates out
of the whole pair evaluation. -/
theorem c6_counterexample :
    evaluate (.obj [("x", .str "abc")])
        (.obj [("field", .str "x"), ("op", .str "regex"), ("value", .str "[")]) =
      .error (.reError "bad regular expression pattern") ∧
    evalList (.obj [("x", .str "abc")])
        [.obj [("field", .str "x"), ("op", .str "regex"), ("value", .str "[")],
         .obj [("field", .str "x"), ("op", .str "exists")]] =
      .error (.reError "bad regular expression pattern") ∧
    evaluateUserAgainstPolicy (.obj [("x", .str "abc")])
        (.obj [("field", .str "x"), ("op", .str "regex"), ("value", .str "[")]) =
      .error (.reError "bad regular expression pattern") :=
  ⟨by rfl, by rfl, by rfl⟩

theorem c6_witness :
    (∃ m, PyExc.reError "bad regular expression pattern" = .reError m) ∨
      getNestedValue (.obj [("x", .str "abc")])
        (findKeyValue [("field", .str "x"), ("op", .str "regex"),
          ("value", .str "[")] FIELD_KEYS) =
        .error (.reError "bad regular expression pattern") :=
  (c6_condition_error_capture (.obj [("x", .str "abc")])
    [("field", .str "x"), ("op", .str "regex"), ("value", .str "[")]).1
    (.reError "bad regular expression pattern") (by rfl)

theorem evaluateUserAgainstPolicy_shape (u p r : JValue)
    (h : evaluateUserAgainstPolicy u p = .ok r) :
    ∃ (passed : Bool) (details fc : JValue),
      r = .obj [("user_data", u), ("policy", p), ("passed", .bool passed),
        ("details", details), ("failed_conditions", fc)] := by
  rw [evaluateUserAgainstPolicy] at h
  cases he : evaluate u p with
  | error e => rw [he] at h; cases h
  | ok pd =>
    rw [he] at h
    obtain ⟨passed, details⟩ := pd
    cases h
    exact ⟨passed, details, _, rfl⟩

theorem attachPairMeta_facts (u p r : JValue) (ui pi2 : ℕ)
    (ucs pcs : Option (List JValue))
    (hr : evaluateUserAgainstPolicy u p = .ok r) :
    jget "user_index" (attachPairMeta r ui pi2 ucs pcs) = some (.num ui) ∧
    jget "policy_index" (attachPairMeta r ui pi2 ucs pcs) = some (.num pi2) ∧
    hasKey "user_context" (attachPairMeta r ui pi2 ucs pcs) = ctxCond ucs ui ∧
    hasKey "policy_context" (attachPairMeta r ui pi2 ucs pcs) = ctxCond pcs pi2 := by
  obtain ⟨passed, details, fc, rfl⟩ := evaluateUserAgainstPolicy_shape u p r hr
  rw [attachPairMeta]
  cases hc1 : ctxCond ucs ui <;> cases hc2 : ctxCond pcs pi2 <;>
    simp [jget, jlookup, hasKey]

theorem goPolicies_spec (u : JValue) (ui : ℕ) (ucs pcs : Option (List JValue)) :
    ∀ (ps : List JValue) (pi0 : ℕ),
      (∀ p ∈ ps, isOk (evaluateUserAgainstPolicy u p) = true) →
      ∃ row, goPolicies u ui ucs pcs ps pi0 = .ok row ∧
        row.length = ps.length ∧
        ∀ (j : ℕ), j < ps.length →
          ∃ r0, row.get? j = some r0 ∧
            jget "user_index" r0 = some (.num ui) ∧
            jget "policy_index" r0 = some (.num ((pi0 + j : ℕ) : ℚ)) ∧
            hasKey "user_context" r0 = ctxCond ucs ui ∧
            hasKey "policy_context" r0 = ctxCond pcs (pi0 + j) := by
  intro ps
  induction ps with
  | nil =>
    intro pi0 h
    exact ⟨[], rfl, rfl, fun j hj => absurd hj (by simp)⟩
  | cons p rest ih =>
    intro pi0 h
    have hp := h p (List.mem_cons_self p rest)
    cases hep : evaluateUserAgainstPolicy u p with
    | error e => rw [hep] at hp; cases hp
    | ok r =>
      obtain ⟨row2, hrow2, hlen2, hfacts2⟩ :=
        ih (pi0 + 1) (fun q hq => h q (List.mem_cons_of_mem p hq))
      refine ⟨attachPairMeta r ui pi0 ucs pcs :: row2, ?_, by simp [hlen2], ?_⟩
      · rw [goPolicies, hep, hrow2]
      · intro j hj
        cases j with
        | zero =>
          refine ⟨attachPairMeta r ui pi0 ucs pcs, rfl, ?_⟩
          have := attachPairMeta_facts u p r ui pi0 ucs pcs hep
          simpa using this
        | succ k =>
          obtain ⟨r0, hget, hf1, hf2, hf3, hf4⟩ := hfacts2 k (by simpa using hj)
          refine ⟨r0, by simpa using hget, hf1, ?_, hf3, ?_⟩
          · rw [show pi0 + (k + 1) = pi0 + 1 + k from by omega]
            exact hf2
          · rw [show pi0 + (k + 1) = pi0 + 1 + k from by omega]
            exact hf4

theorem goUsers_spec (policies : List JValue) (ucs pcs : Option (List JValue)) :
    ∀ (us : List JValue) (ui0 : ℕ),
      (∀ u ∈ us, ∀ p ∈ policies, isOk (evaluateUserAgainstPolicy u p) = true) →
      ∃ out, goUsers policies ucs pcs us ui0 = .ok out ∧
        out.length = us.length * policies.length ∧
        ∀ (i pi2 : ℕ), i < us.length → pi2 < policies.length →
          ∃ r0, out.get? (i * policies.length + pi2) = some r0 ∧
            jget "user_index" r0 = some (.num ((ui0 + i : ℕ) : ℚ)) ∧
            jget "policy_index" r0 = some (.num pi2) ∧
            hasKey "user_context" r0 = ctxCond ucs (ui0 + i) ∧
            hasKey "policy_context" r0 = ctxCond pcs pi2 := by
  intro us
  induction us with
  | nil =>
    intro ui0 h
    exact ⟨[], rfl, by simp, fun i pi2 hi => absurd hi (by simp)⟩
  | cons u rest ih =>
    intro ui0 h
    obtain ⟨row, hrow, hrlen, hrfacts⟩ := goPolicies_spec u ui0 ucs pcs policies 0
      (fun p hp => h u (List.mem_cons_self u rest) p hp)
    obtain ⟨out2, hout2, hlen2, hfacts2⟩ :=
      ih (ui0 + 1) (fun v hv p hp => h v (List.mem_cons_of_mem u hv) p hp)
    refine ⟨row ++ out2, ?_, ?_, ?_⟩
    · rw [goUsers, hrow, hout2]
    · simp [hrlen, hlen2]
      ring
    · intro i pi2 hi hp2
      cases i with
      | zero =>
        have hidx : 0 * policies.length + pi2 < row.length := by
          rw [hrlen]
          omega
        obtain ⟨r0, hget, hf1, hf2, hf3, hf4⟩ := hrfacts pi2 hp2
        refine ⟨r0, ?_, by simpa using hf1, by simpa using hf2,
          by simpa using hf3, by simpa using hf4⟩
        rw [List.get?_append hidx]
        simpa using hget
      | succ k =>
        have hge : row.length ≤ (k + 1) * policies.length + pi2 := by
          rw [hrlen]
          have : policies.length ≤ (k + 1) * policies.length :=
            Nat.le_mul_of_pos_left policies.length (by omega)
          omega
        obtain ⟨r0, hget, hf1, hf2, hf3, hf4⟩ :=
          hfacts2 k pi2 (by simpa using hi) hp2
        refine ⟨r0, ?_, ?_, hf2, ?_, hf4⟩
        · rw [List.get?_append_right hge, hrlen]
          rw [show (k + 1) * policies.length + pi2 - policies.length =
            k * policies.length + pi2 from by ring_nf; omega]
          exact hget
        · rw [show ui0 + (k + 1) = ui0 + 1 + k from by omega]
          exact hf1
        · rw [show ui0 + (k + 1) = ui0 + 1 + k from by omega]
          exact hf3

/-- C8: the batch evaluator is total with respect to mismatched context
lists — whenever every pair evaluation returns (no uncaught exception), it
yields exactly `len(users) * len(policies)` results in record-major order
(result `ui * len(policies) + pi` carries `user_index = ui` and
`policy_index = pi`), and a result carries the `user_context`
(resp. `policy_context`) key exactly when a non-empty context list was
supplied whose length exceeds that index; shorter context lists never cause
an error, the affected results simply omit the key. -/
theorem c8_cross_product (users policies : List JValue)
    (ucs pcs : Option (List JValue))
    (h : ∀ u ∈ users, ∀ p ∈ policies, isOk (evaluateUserAgainstPolicy u p) = true) :
    ∃ rs, evaluateUsersAgainstPolicies users policies ucs pcs = .ok rs ∧
      rs.length = users.length * policies.length ∧
      ∀ (ui pi2 : ℕ), ui < users.length → pi2 < policies.length →
        ∃ r, rs.get? (ui * policies.length + pi2) = some r ∧
          jget "user_index" r = some (.num ui) ∧
          jget "policy_index" r = some (.num pi2) ∧
          hasKey "user_context" r = ctxCond ucs ui ∧
          hasKey "policy_context" r = ctxCond pcs pi2 := by
  obtain ⟨out, hout, hlen, hfacts⟩ := goUsers_spec policies ucs pcs users 0 h
  refine ⟨out, hout, hlen, ?_⟩
  intro ui pi2 hu hp
  obtain ⟨r, hget, hf1, hf2, hf3, hf4⟩ := hfacts ui pi2 hu hp
  exact ⟨r, hget, by simpa using hf1, hf2, by simpa using hf3, hf4⟩

theorem c8_witness :
    ∃ rs, evaluateUsersAgainstPolicies [.obj []] [.null, .obj []]
        (some [.str "uctx"]) (some []) = .ok rs ∧
      rs.length = [JValue.obj []].length * [JValue.null, JValue.obj []].length ∧
      ∀ (ui pi2 : ℕ), ui < [JValue.obj []].length →
        pi2 < [JValue.null, JValue.obj []].length →
        ∃ r, rs.get? (ui * [JValue.null, JValue.obj []].length + pi2) = some r ∧
          jget "user_index" r = some (.num ui) ∧
          jget "policy_index" r = some (.num pi2) ∧
          hasKey "user_context" r = ctxCond (some [.str "uctx"]) ui ∧
          hasKey "policy_context" r = ctxCond (some []) pi2 :=
  c8_cross_product [.obj []] [.null, .obj []] (some [.str "uctx"]) (some [])
    (by
      intro u hu p hp
      rcases List.mem_singleton.mp hu with rfl
      rcases List.mem_cons.mp hp with rfl | hp2
      · rfl
      · rcases List.mem_singleton.mp hp2 with rfl
        rfl)
